import Mathlib

/-! Market-data WebSocket server: subscription index, request handling,
session write queue, tick fan-out and instrument catalog.

A shallow embedding of `src/market_data_server.cpp` (single source file of the
repository) and the properties of its subscription bookkeeping, request
handling and per-session write queue.

Modelling conventions

* `std::string` is `String`; a `const char*` read back into a `std::string`
  keeps the characters before the first NUL (`cstr`).
* `std::set<std::string>` is the list of its elements in iteration order
  (`StrSet.insert`, `StrSet.erase`); `std::map<std::string, V>` is a function
  `String → Option V` (only `find`, `operator[]` and `erase` are used on the
  maps this development covers).  The container declarations live in
  `market_data_server.h`, which is not part of the sources.
* A parsed rapidjson document is a `JsonValue`; a failed parse is `none`.
  An outbound text frame is represented by the document it serialises.
  `handle_message` looks members up without testing that the document is an
  object; rapidjson defines those lookups for objects only, so the model has
  no result for any other root.
* Session objects are identified by their session id (`create_session_id`
  makes ids unique); the sessions table records which ids are registered.
* Calls into the vendor SDK (`ctp_api_->...`) and into the multi-connection
  dispatcher (`subscription_dispatcher_->...`) are recorded, in order, in call
  logs kept in the server state.  Logging (`log_info` and friends) has no
  effect on the state and is left out.
* The cache client (`RedisClient`) is not part of the sources: it is a log of
  the requests made on it, with the answers it gave taken as input.
* A session object lives as long as a `shared_ptr` to it exists: the sessions
  table holds one for every registered session, a pending handler holds one.
  The destructor is the only caller of `remove_session`; a call that erases
  the table's entry while it is the last `shared_ptr` runs the destructor under
  `sessions_mutex_` and has no result.
* The mutexes make every member function below one atomic step.
-/

namespace MarketData

/-! ## Strings, sets and JSON documents -/

/-- The NUL character. -/
def NUL : Char := Char.ofNat 0

/-- Characters of a C string: what `std::string(const char*)` keeps of a buffer,
namely everything before the first NUL. -/
def cstr (s : String) : String := String.mk (s.data.takeWhile (fun c => c != NUL))

/-- Position of a new element in a `std::set<std::string>`: before the first
element that is greater (lexicographic on the characters). -/
def StrSet.place (x : String) : List String → List String
  | [] => [x]
  | y :: ys =>
    if x.data < y.data then x :: y :: ys
    else y :: StrSet.place x ys

/-- Insertion `std::set<std::string>::insert(x)`: nothing happens when an equal
element is present, otherwise the element is put at its position in the
ordering. -/
def StrSet.insert (x : String) (s : List String) : List String :=
  if x ∈ s then s else StrSet.place x s

/-- Removal `std::set<std::string>::erase(key)`: removes the elements equal to
the key. -/
def StrSet.erase (x : String) (s : List String) : List String :=
  s.filter (fun y => y != x)

/-- Conversion `static_cast<int>(n)` of a `size_t` (two's complement, 32 bits). -/
def static_cast_int (n : Nat) : Int :=
  ((n : Int) + 2 ^ 31) % 2 ^ 32 - 2 ^ 31

/-- Pre-increment `++x` of a 32-bit `int` counter, wrapping. -/
def pre_increment (x : Int) : Int :=
  (x + 1 + 2 ^ 31) % 2 ^ 32 - 2 ^ 31

/-- A rapidjson value.  Doubles are carried as their 64-bit pattern. -/
inductive JsonValue where
  | null
  | bool (b : Bool)
  | int (n : Int)
  | double (bits : Nat)
  | str (s : String)
  | arr (items : List JsonValue)
  | obj (members : List (String × JsonValue))

namespace JsonValue

/-- Test `v.IsString()`. -/
def IsString : JsonValue → Bool
  | str _ => true
  | _ => false

/-- Test `v.IsArray()`. -/
def IsArray : JsonValue → Bool
  | arr _ => true
  | _ => false

/-- Test `v.IsObject()`. -/
def IsObject : JsonValue → Bool
  | obj _ => true
  | _ => false

/-- Lookup `FindMember(name)` on the member list of an object: the first member
with that name. -/
def FindMember (members : List (String × JsonValue)) (name : String) : Option JsonValue :=
  match members with
  | [] => none
  | (k, v) :: rest => if k = name then some v else FindMember rest name

/-- Test `doc.HasMember(name)` on the member list of an object. -/
def HasMember (members : List (String × JsonValue)) (name : String) : Bool :=
  (FindMember members name).isSome

end JsonValue

/-- An outbound text frame, represented by the JSON document it serialises. -/
abbrev Message := JsonValue

/-! ## Session -/

/-- The websocket stream `ws_` as far as the session drives it: the payloads
handed to `async_write` (oldest first), the number of those writes whose
completion handler has not run yet, and whether `close` was called. -/
structure WsStream where
  written : List Message
  writes_in_flight : Nat
  closed : Bool

/-- Call `ws_.async_write(buffer, handler)`. -/
def WsStream.async_write (ws : WsStream) (message : Message) : WsStream :=
  { ws with written := ws.written ++ [message], writes_in_flight := ws.writes_in_flight + 1 }

/-- State of one `WebSocketSession` object. -/
structure WebSocketSession where
  session_id_ : String
  ws_ : WsStream
  message_queue_ : List Message
  is_writing_ : Bool
  subscriptions_ : List String

namespace WebSocketSession

/-- A session right after its constructor ran with the given id. -/
def create (session_id : String) : WebSocketSession :=
  { session_id_ := session_id
    ws_ := { written := [], writes_in_flight := 0, closed := false }
    message_queue_ := []
    is_writing_ := false
    subscriptions_ := [] }

/-- Member `start_write`. -/
def start_write (self : WebSocketSession) : WebSocketSession :=
  match self.message_queue_ with
  | [] => { self with is_writing_ := false }
  | message :: rest =>
    { self with message_queue_ := rest, ws_ := self.ws_.async_write message }

/-- Member `send_message`. -/
def send_message (self : WebSocketSession) (message : Message) : WebSocketSession :=
  let self1 := { self with message_queue_ := self.message_queue_ ++ [message] }
  if !self1.is_writing_ then
    start_write { self1 with is_writing_ := true }
  else
    self1

/-- Member `on_write`; `ec` is true when the write failed. -/
def on_write (self : WebSocketSession) (ec : Bool) : WebSocketSession :=
  if ec then { self with is_writing_ := false }
  else start_write self

/-- Member `send_response`: serialise and enqueue. -/
def send_response (self : WebSocketSession) (data : JsonValue) : WebSocketSession :=
  self.send_message data

/-- Member `send_error`; `now` is the clock reading in milliseconds. -/
def send_error (self : WebSocketSession) (error_msg : String) (now : Int) : WebSocketSession :=
  self.send_response
    (.obj [("type", .str "error"), ("message", .str (cstr error_msg)), ("timestamp", .int now)])

/-- Member `close`. -/
def close (self : WebSocketSession) : WebSocketSession :=
  { self with ws_ := { self.ws_ with closed := true } }

/-- Every frame the session has accepted so far, oldest first: those already
handed to the transport followed by those still queued. -/
def enqueued (self : WebSocketSession) : List Message :=
  self.ws_.written ++ self.message_queue_

end WebSocketSession

/-! ## Server -/

/-- A request made on the vendor SDK handle `ctp_api_`. -/
inductive CtpCall where
  | ReqUserLogin (broker_id : String) (request_id : Int)
  | SubscribeMarketData (instrument_id : String)
  | UnSubscribeMarketData (instrument_id : String)
  deriving DecidableEq

/-- A request made on `subscription_dispatcher_` (multi-connection mode); the
dispatcher class itself is not part of the sources. -/
inductive DispatcherCall where
  | add_subscription (session_id instrument_id : String)
  | remove_subscription (session_id instrument_id : String)
  | remove_all_subscriptions_for_session (session_id : String)
  deriving DecidableEq

/-- State of the `MarketDataServer` object.  `ctp_api_` and
`subscription_dispatcher_` say whether the pointer is non-null; `sessions_`
says whether the table has an entry for the id (the entry points to the
session object with that id); `ins_map_` is the catalog's keys in iteration
order, `none` when the pointer is null. -/
structure MarketDataServer where
  broker_id_ : String
  use_multi_ctp_mode_ : Bool
  ctp_api_ : Bool
  ctp_connected_ : Bool
  ctp_logged_in_ : Bool
  request_id_ : Int
  ctp_calls : List CtpCall
  subscription_dispatcher_ : Bool
  dispatcher_calls : List DispatcherCall
  sessions_ : String → Bool
  instrument_subscribers_ : String → Option (List String)
  ins_map_ : Option (List String)

namespace MarketDataServer

/-- The single-connection constructor `MarketDataServer(front, broker_id, port)`. -/
def create (broker_id : String) : MarketDataServer :=
  { broker_id_ := broker_id
    use_multi_ctp_mode_ := false
    ctp_api_ := false
    ctp_connected_ := false
    ctp_logged_in_ := false
    request_id_ := 0
    ctp_calls := []
    subscription_dispatcher_ := false
    dispatcher_calls := []
    sessions_ := fun _ => false
    instrument_subscribers_ := fun _ => none
    ins_map_ := none }

/-- Member `ctp_login`; `ret` is what `ReqUserLogin` returns.  The call goes
through `ctp_api_`, so there is no result when that pointer is null. -/
def ctp_login (srv : MarketDataServer) (ret : Int) : Option MarketDataServer :=
  if srv.ctp_api_ then
    let request_id := pre_increment srv.request_id_
    let srv1 := { srv with
      request_id_ := request_id
      ctp_calls := srv.ctp_calls ++ [CtpCall.ReqUserLogin (cstr srv.broker_id_) request_id] }
    if ret != 0 then some srv1
    else some { srv1 with ctp_connected_ := true, ctp_logged_in_ := true }
  else none

/-- Member `add_session`. -/
def add_session (srv : MarketDataServer) (session_id : String) : MarketDataServer :=
  { srv with sessions_ := Function.update srv.sessions_ session_id true }

/-- Member `subscribe_instrument`. -/
def subscribe_instrument (srv : MarketDataServer) (session_id instrument_id : String) :
    MarketDataServer :=
  if srv.use_multi_ctp_mode_ then
    if srv.subscription_dispatcher_ then
      { srv with dispatcher_calls :=
          srv.dispatcher_calls ++ [DispatcherCall.add_subscription session_id instrument_id] }
    else srv
  else
    let subscribers :=
      StrSet.insert session_id ((srv.instrument_subscribers_ instrument_id).getD [])
    let index := Function.update srv.instrument_subscribers_ instrument_id (some subscribers)
    let srv1 := { srv with instrument_subscribers_ := index }
    if subscribers.length == 1 && srv1.ctp_api_ && srv1.ctp_logged_in_ then
      { srv1 with ctp_calls := srv1.ctp_calls ++ [CtpCall.SubscribeMarketData instrument_id] }
    else srv1

/-- Member `unsubscribe_instrument`. -/
def unsubscribe_instrument (srv : MarketDataServer) (session_id instrument_id : String) :
    MarketDataServer :=
  if srv.use_multi_ctp_mode_ then
    if srv.subscription_dispatcher_ then
      { srv with dispatcher_calls :=
          srv.dispatcher_calls ++ [DispatcherCall.remove_subscription session_id instrument_id] }
    else srv
  else
    match srv.instrument_subscribers_ instrument_id with
    | none => srv
    | some subscribers =>
      let remaining := StrSet.erase session_id subscribers
      if remaining.isEmpty then
        let index := Function.update srv.instrument_subscribers_ instrument_id none
        let srv1 := { srv with instrument_subscribers_ := index }
        if srv1.ctp_api_ && srv1.ctp_logged_in_ then
          { srv1 with ctp_calls :=
              srv1.ctp_calls ++ [CtpCall.UnSubscribeMarketData instrument_id] }
        else srv1
      else
        { srv with instrument_subscribers_ :=
            Function.update srv.instrument_subscribers_ instrument_id (some remaining) }

/-- Body of the loop over the session's subscriptions in `remove_session`
(single-connection branch). -/
def remove_session_loop (session_id : String) (srv : MarketDataServer)
    (instrument_id : String) : MarketDataServer :=
  match srv.instrument_subscribers_ instrument_id with
  | none => srv
  | some subscribers =>
    let remaining := StrSet.erase session_id subscribers
    if remaining.isEmpty then
      let index := Function.update srv.instrument_subscribers_ instrument_id none
      let srv1 := { srv with instrument_subscribers_ := index }
      if srv1.ctp_api_ && srv1.ctp_logged_in_ then
        { srv1 with ctp_calls :=
            srv1.ctp_calls ++ [CtpCall.UnSubscribeMarketData instrument_id] }
      else srv1
    else
      { srv with instrument_subscribers_ :=
          Function.update srv.instrument_subscribers_ instrument_id (some remaining) }

/-- Member `remove_session`; `deref` gives the session object a table entry
points to, and `shared` says whether a `shared_ptr` to the session exists
besides the table's entry (a pending handler holds one).  The entry is erased
while `sessions_mutex_` is held: when it is the last `shared_ptr`, the erase
runs `~WebSocketSession`, which calls `remove_session` again and locks the same
mutex a second time, so the call has no result. -/
def remove_session (srv : MarketDataServer) (deref : String → WebSocketSession)
    (session_id : String) (shared : Bool) : Option MarketDataServer :=
  let srv1 :=
    if srv.use_multi_ctp_mode_ then
      if srv.subscription_dispatcher_ then
        { srv with dispatcher_calls := srv.dispatcher_calls ++
            [DispatcherCall.remove_all_subscriptions_for_session session_id] }
      else srv
    else
      if srv.sessions_ session_id then
        (deref session_id).subscriptions_.foldl (remove_session_loop session_id) srv
      else srv
  if srv1.sessions_ session_id then
    if shared then
      some { srv1 with sessions_ := Function.update srv1.sessions_ session_id false }
    else none
  else some srv1

/-- The state `remove_session` returns, when it returns: the subscriptions of
a registered session released and the id out of the sessions table. -/
def remove_session_result (srv : MarketDataServer) (deref : String → WebSocketSession)
    (session_id : String) : MarketDataServer :=
  let srv1 :=
    if srv.use_multi_ctp_mode_ then
      if srv.subscription_dispatcher_ then
        { srv with dispatcher_calls := srv.dispatcher_calls ++
            [DispatcherCall.remove_all_subscriptions_for_session session_id] }
      else srv
    else
      if srv.sessions_ session_id then
        (deref session_id).subscriptions_.foldl (remove_session_loop session_id) srv
      else srv
  { srv1 with sessions_ := Function.update srv1.sessions_ session_id false }

/-- Test `haystack.find(needle) != npos`. -/
def contains_substring (haystack needle : List Char) : Bool :=
  haystack.tails.any (fun t => needle.isPrefixOf t)

/-- Transformation `std::transform(..., ::tolower)`: every character is
replaced by its lower-case form (upper-case ASCII letters change, nothing else
does). -/
def to_lower (s : String) : String := String.mk (s.data.map Char.toLower)

/-- Key of a catalog entry as the two members read it: the C string in the
fixed char array, then cut at the first NUL. -/
def catalog_key (raw : String) : String := cstr (cstr raw)

/-- Member `get_all_instruments`. -/
def get_all_instruments (srv : MarketDataServer) : List String :=
  match srv.ins_map_ with
  | none => []
  | some entries =>
    entries.foldl (fun instruments raw =>
      let key := catalog_key raw
      if !key.isEmpty then instruments ++ [key] else instruments) []

/-- Member `search_instruments`. -/
def search_instruments (srv : MarketDataServer) (pattern : String) : List String :=
  match srv.ins_map_ with
  | none => []
  | some entries =>
    let lower_pattern := to_lower pattern
    entries.foldl (fun matching_instruments raw =>
      let key := catalog_key raw
      if !key.isEmpty then
        let lower_key := to_lower key
        if contains_substring lower_key.data lower_pattern.data then
          matching_instruments ++ [key]
        else matching_instruments
      else matching_instruments) []

/-- Accessor `is_ctp_connected`.  The multi-connection branch asks the
connection manager, which is not part of the sources: `active_connections` is
what `get_active_connections()` answers, `none` when `connection_manager_` is
null. -/
def is_ctp_connected (srv : MarketDataServer) (active_connections : Option Nat) : Bool :=
  if srv.use_multi_ctp_mode_ then
    match active_connections with
    | some n => decide (n > 0)
    | none => false
  else srv.ctp_connected_

/-- Accessor `is_ctp_logged_in`; `active_connections` as for `is_ctp_connected`. -/
def is_ctp_logged_in (srv : MarketDataServer) (active_connections : Option Nat) : Bool :=
  if srv.use_multi_ctp_mode_ then
    match active_connections with
    | some n => decide (n > 0)
    | none => false
  else srv.ctp_logged_in_

end MarketDataServer

/-! ## Request handling -/

namespace WebSocketSession

/-- The loop over `instruments` of the `subscribe` branch of `handle_message`. -/
def subscribe_loop :
    List JsonValue → WebSocketSession → MarketDataServer → WebSocketSession × MarketDataServer
  | [], self, server => (self, server)
  | inst :: rest, self, server =>
    match inst with
    | .str s =>
      let instrument_id := cstr s
      let self1 := { self with
        subscriptions_ := StrSet.insert instrument_id self.subscriptions_ }
      subscribe_loop rest self1 (server.subscribe_instrument self1.session_id_ instrument_id)
    | _ => subscribe_loop rest self server

/-- The loop over `instruments` of the `unsubscribe` branch of `handle_message`. -/
def unsubscribe_loop :
    List JsonValue → WebSocketSession → MarketDataServer → WebSocketSession × MarketDataServer
  | [], self, server => (self, server)
  | inst :: rest, self, server =>
    match inst with
    | .str s =>
      let instrument_id := cstr s
      let self1 := { self with
        subscriptions_ := StrSet.erase instrument_id self.subscriptions_ }
      unsubscribe_loop rest self1 (server.unsubscribe_instrument self1.session_id_ instrument_id)
    | _ => unsubscribe_loop rest self server

/-- The array of instrument names put into `instrument_list` and
`search_result` responses. -/
def inst_array (instruments : List String) : JsonValue :=
  .arr (instruments.map (fun inst => JsonValue.str (cstr inst)))

/-- Member `handle_message`.  `parsed` is the outcome of `doc.Parse(message)`
(`none` on a parse error) and `now` the clock reading used for the timestamp
of an error frame.  `HasMember` and `operator[]` have the precondition that the
document is an object, which the member does not check: for any other root
there is no result. -/
def handle_message (self : WebSocketSession) (server : MarketDataServer) (now : Int)
    (parsed : Option JsonValue) : Option (WebSocketSession × MarketDataServer) :=
  match parsed with
  | none => some (self.send_error "Invalid JSON format" now, server)
  | some (.obj doc) =>
    match JsonValue.FindMember doc "action" with
    | some (.str a) =>
      let action := cstr a
      if action = "subscribe" then
        match JsonValue.FindMember doc "instruments" with
        | some (.arr instruments) =>
          let r := subscribe_loop instruments self server
          some (r.1.send_response (.obj
            [("type", .str "subscribe_response"), ("status", .str "success"),
             ("subscribed_count", .int (static_cast_int r.1.subscriptions_.length))]), r.2)
        | _ => some (self.send_error "Missing or invalid 'instruments' field" now, server)
      else if action = "unsubscribe" then
        match JsonValue.FindMember doc "instruments" with
        | some (.arr instruments) =>
          let r := unsubscribe_loop instruments self server
          some (r.1.send_response (.obj
            [("type", .str "unsubscribe_response"), ("status", .str "success"),
             ("subscribed_count", .int (static_cast_int r.1.subscriptions_.length))]), r.2)
        | _ => some (self.send_error "Missing or invalid 'instruments' field" now, server)
      else if action = "list_instruments" then
        let instruments := server.get_all_instruments
        some (self.send_response (.obj
          [("type", .str "instrument_list"), ("instruments", inst_array instruments),
           ("count", .int (static_cast_int instruments.length))]), server)
      else if action = "search_instruments" then
        match JsonValue.FindMember doc "pattern" with
        | some (.str p) =>
          let pattern := cstr p
          let instruments := server.search_instruments pattern
          some (self.send_response (.obj
            [("type", .str "search_result"), ("pattern", .str (cstr pattern)),
             ("instruments", inst_array instruments),
             ("count", .int (static_cast_int instruments.length))]), server)
        | _ => some (self.send_error "Missing or invalid 'pattern' field" now, server)
      else
        some (self.send_error ("Unknown action: " ++ action) now, server)
    | _ => some (self.send_error "Missing or invalid 'action' field" now, server)
  | some _ => none

end WebSocketSession

/-! ## The server together with its session objects -/

namespace MarketDataServer

/-- Current subscribers of an instrument: the set stored under it in
`instrument_subscribers_`, empty when there is no entry. -/
def subscribers (srv : MarketDataServer) (instrument_id : String) : List String :=
  (srv.instrument_subscribers_ instrument_id).getD []

/-- Whether the instrument is subscribed upstream after the given SDK calls:
a `SubscribeMarketData` for it was issued and no `UnSubscribeMarketData` for it
since. -/
def upstream_subscribed (calls : List CtpCall) (instrument_id : String) : Bool :=
  calls.foldl (fun subscribed call =>
    match call with
    | CtpCall.SubscribeMarketData i => if i = instrument_id then true else subscribed
    | CtpCall.UnSubscribeMarketData i => if i = instrument_id then false else subscribed
    | CtpCall.ReqUserLogin _ _ => subscribed) false

/-- The upstream link counts as logged in when the SDK handle exists and
`ctp_logged_in_` is set (the guard of every upstream request). -/
def upstream_ready (srv : MarketDataServer) : Bool :=
  srv.ctp_api_ && srv.ctp_logged_in_

end MarketDataServer

/-- A call on the server's subscription interface.  `remove_session` carries
the session objects as they are when the call is made, and whether the session
has an owner besides the sessions table at that moment. -/
inductive ServerOp where
  | ctp_login (ret : Int)
  | subscribe_instrument (session_id instrument_id : String)
  | unsubscribe_instrument (session_id instrument_id : String)
  | remove_session (deref : String → WebSocketSession) (session_id : String) (shared : Bool)

/-- One call. -/
def ServerOp.apply (srv : MarketDataServer) : ServerOp → Option MarketDataServer
  | .ctp_login ret => srv.ctp_login ret
  | .subscribe_instrument s i => some (srv.subscribe_instrument s i)
  | .unsubscribe_instrument s i => some (srv.unsubscribe_instrument s i)
  | .remove_session deref s shared => srv.remove_session deref s shared

/-- Whether the call leaves the session an owner: true of every call except a
`remove_session` made when the sessions table may hold the last `shared_ptr`. -/
def ServerOp.shared : ServerOp → Bool
  | .remove_session _ _ shared => shared
  | _ => true

/-- A sequence of calls, oldest first. -/
def ServerOp.run (srv : MarketDataServer) : List ServerOp → Option MarketDataServer
  | [] => some srv
  | op :: rest =>
    match op.apply srv with
    | none => none
    | some srv1 => ServerOp.run srv1 rest

/-- The server and the session objects, keyed by session id. -/
structure World where
  server : MarketDataServer
  session : String → WebSocketSession

/-- An incoming text frame as `handle_message` sees it after parsing: not
JSON at all, or a JSON object. -/
inductive Frame where
  | malformed
  | object (members : List (String × JsonValue))

/-- Outcome of `doc.Parse` on the frame. -/
def Frame.parsed : Frame → Option JsonValue
  | .malformed => none
  | .object members => some (.obj members)

/-- The session with the given id handles one parsed frame. -/
def World.handle_message (w : World) (session_id : String) (now : Int)
    (parsed : Option JsonValue) : Option World :=
  match (w.session session_id).handle_message w.server now parsed with
  | none => none
  | some r => some { server := r.2, session := Function.update w.session session_id r.1 }

/-- A sequence of frames, each with the session that receives it and the
clock reading at that moment, handled oldest first. -/
def World.run (w : World) : List (String × Int × Frame) → Option World
  | [] => some w
  | (session_id, now, frame) :: rest =>
    match w.handle_message session_id now frame.parsed with
    | none => none
    | some w1 => World.run w1 rest

/-- A server created in single-connection mode and sessions fresh from their
constructors. -/
def World.create (broker_id : String) : World :=
  { server := MarketDataServer.create broker_id
    session := fun session_id => WebSocketSession.create session_id }

/-- A `subscribe` request for the given instruments. -/
def subscribe_request (instruments : List String) : Frame :=
  .object [("action", .str "subscribe"),
           ("instruments", .arr (instruments.map JsonValue.str))]

/-- An `unsubscribe` request for the given instruments. -/
def unsubscribe_request (instruments : List String) : Frame :=
  .object [("action", .str "unsubscribe"),
           ("instruments", .arr (instruments.map JsonValue.str))]

/-! ### Interleavings of `send_message` and write completions -/

/-- What can happen to the write side of a session: a caller enqueues a frame,
or the transport completes the outstanding write and runs `on_write`. -/
inductive WriteEvent where
  | send (message : Message)
  | completion (ec : Bool)

/-- One event.  The transport runs a completion handler only for a write that
was issued and has not completed; with none in flight there is no handler to
run. -/
def WriteEvent.apply (self : WebSocketSession) : WriteEvent → WebSocketSession
  | .send message => self.send_message message
  | .completion ec =>
    match self.ws_.writes_in_flight with
    | 0 => self
    | n + 1 =>
      WebSocketSession.on_write
        { self with ws_ := { self.ws_ with writes_in_flight := n } } ec

/-- A whole interleaving, applied left to right. -/
def WriteEvent.run (self : WebSocketSession) (events : List WriteEvent) : WebSocketSession :=
  events.foldl WriteEvent.apply self

/-- The frames passed to `send_message` in an interleaving, in call order. -/
def WriteEvent.sent : List WriteEvent → List Message
  | [] => []
  | .send message :: rest => message :: WriteEvent.sent rest
  | .completion _ :: rest => WriteEvent.sent rest

/-- Number of `async_write` calls one event makes. -/
def WriteEvent.writes_issued (self : WebSocketSession) (e : WriteEvent) : Nat :=
  (e.apply self).ws_.written.length - self.ws_.written.length

/-- The flag and the transport agree: `is_writing_` is set and one write is in
flight, or it is clear and none is. -/
def WriteInv (self : WebSocketSession) : Prop :=
  (self.is_writing_ = true ∧ self.ws_.writes_in_flight = 1) ∨
  (self.is_writing_ = false ∧ self.ws_.writes_in_flight = 0)

/-- The instrument ids a request names: the C strings of the string entries
of its `instruments` array, in order (other entries are skipped). -/
def requested_instruments : List JsonValue → List String
  | [] => []
  | .str s :: rest => cstr s :: requested_instruments rest
  | .null :: rest => requested_instruments rest
  | .bool _ :: rest => requested_instruments rest
  | .int _ :: rest => requested_instruments rest
  | .double _ :: rest => requested_instruments rest
  | .arr _ :: rest => requested_instruments rest
  | .obj _ :: rest => requested_instruments rest

/-- The `error` frame with the given message and timestamp. -/
def error_frame (message : String) (now : Int) : Message :=
  .obj [("type", .str "error"), ("message", .str message), ("timestamp", .int now)]

/-- The `subscribe_response` / `unsubscribe_response` frame of the given type
and count. -/
def count_frame (type : String) (subscribed_count : Int) : Message :=
  .obj [("type", .str type), ("status", .str "success"),
        ("subscribed_count", .int subscribed_count)]

/-- The set after inserting the given ids one after the other. -/
def StrSet.insert_all (ids : List String) (set : List String) : List String :=
  ids.foldl (fun acc i => StrSet.insert i acc) set

/-- The set after erasing the given ids one after the other. -/
def StrSet.erase_all (ids : List String) (set : List String) : List String :=
  ids.foldl (fun acc i => StrSet.erase i acc) set

/-- The frames of the protocol-error classes: text that is not JSON; an object
without a string `action`; `subscribe` / `unsubscribe` without an array
`instruments`; `search_instruments` without a string `pattern`; an action that
is none of the four known ones.  The action is compared as the member reads it,
that is as a C string. -/
inductive ProtocolError : Frame → Prop where
  | invalid_json : ProtocolError Frame.malformed
  | no_action (doc : List (String × JsonValue))
      (h : ∀ a, JsonValue.FindMember doc "action" ≠ some (.str a)) :
      ProtocolError (Frame.object doc)
  | no_instruments (doc : List (String × JsonValue)) (a : String)
      (ha : JsonValue.FindMember doc "action" = some (.str a))
      (hs : cstr a = "subscribe" ∨ cstr a = "unsubscribe")
      (h : ∀ l, JsonValue.FindMember doc "instruments" ≠ some (.arr l)) :
      ProtocolError (Frame.object doc)
  | no_pattern (doc : List (String × JsonValue)) (a : String)
      (ha : JsonValue.FindMember doc "action" = some (.str a))
      (hs : cstr a = "search_instruments")
      (h : ∀ p, JsonValue.FindMember doc "pattern" ≠ some (.str p)) :
      ProtocolError (Frame.object doc)
  | unknown_action (doc : List (String × JsonValue)) (a : String)
      (ha : JsonValue.FindMember doc "action" = some (.str a))
      (h1 : cstr a ≠ "subscribe") (h2 : cstr a ≠ "unsubscribe")
      (h3 : cstr a ≠ "list_instruments") (h4 : cstr a ≠ "search_instruments") :
      ProtocolError (Frame.object doc)

namespace MarketDataServer

/-- What `unsubscribe_instrument` and the loop of `remove_session` leave of an
instrument's entry: no entry stays no entry; otherwise the session id is erased
and the entry is dropped when that empties it. -/
def released (session_id : String) : Option (List String) → Option (List String)
  | none => none
  | some subscribers =>
    if (StrSet.erase session_id subscribers).isEmpty then none
    else some (StrSet.erase session_id subscribers)

/-- Whether the instrument has an entry that erasing the session id empties. -/
def is_last_subscriber (session_id : String) : Option (List String) → Bool
  | none => false
  | some subscribers => (StrSet.erase session_id subscribers).isEmpty

/-- A single-connection server after `start` created the SDK handle, before
any login. -/
def started (broker_id : String) : MarketDataServer :=
  { MarketDataServer.create broker_id with ctp_api_ := true }

/-- A single-connection server whose login request has been sent
successfully. -/
def logged_in (broker_id : String) : MarketDataServer :=
  { MarketDataServer.create broker_id with
    ctp_api_ := true, ctp_connected_ := true, ctp_logged_in_ := true }

end MarketDataServer

/-- The index and the sessions' own subscription sets mirror each other:
an instrument is in a session's set exactly when the session's id is among the
instrument's subscribers. -/
def World.Sync (w : World) : Prop :=
  ∀ k i, i ∈ (w.session k).subscriptions_ ↔ k ∈ w.server.subscribers i

/-- What a frame can do to the session's subscription set and to the server:
nothing, a run of subscribes, or a run of unsubscribes by this session. -/
def Effect (self : WebSocketSession) (server : MarketDataServer)
    (r : WebSocketSession × MarketDataServer) : Prop :=
  (r.1.subscriptions_ = self.subscriptions_ ∧ r.2 = server) ∨
  (∃ ids, r.1.subscriptions_ = StrSet.insert_all ids self.subscriptions_ ∧
    r.2 = ids.foldl (fun srv i => srv.subscribe_instrument self.session_id_ i) server) ∨
  (∃ ids, r.1.subscriptions_ = StrSet.erase_all ids self.subscriptions_ ∧
    r.2 = ids.foldl (fun srv i => srv.unsubscribe_instrument self.session_id_ i) server)

/-- The state the request handler keeps: single-connection mode, every session
object filed under its own id, and the index mirroring the sessions' sets. -/
def World.Inv (w : World) : Prop :=
  w.server.use_multi_ctp_mode_ = false ∧
  (∀ k, (w.session k).session_id_ = k) ∧
  w.Sync

/-- Frames of a short session history: two sessions subscribe, one of them
unsubscribes again. -/
def sample_frames : List (String × Int × Frame) :=
  [("session_1", 0, subscribe_request ["rb2410", "cu2412"]),
   ("session_2", 1, subscribe_request ["rb2410"]),
   ("session_1", 2, unsubscribe_request ["rb2410"])]

namespace MarketDataServer

/-- The upstream subscriptions follow the index: single-connection mode, the
upstream link logged in, an instrument is subscribed upstream exactly when it
has an entry, and no entry is empty. -/
def UpstreamInv (srv : MarketDataServer) : Prop :=
  srv.use_multi_ctp_mode_ = false ∧
  srv.upstream_ready = true ∧
  ∀ i, (upstream_subscribed srv.ctp_calls i = true ↔
      (srv.instrument_subscribers_ i).isSome = true) ∧
    srv.instrument_subscribers_ i ≠ some []

end MarketDataServer

/-- A session object holding the single subscription `rb2410`. -/
def rb2410_holder (session_id : String) : WebSocketSession :=
  { WebSocketSession.create session_id with subscriptions_ := ["rb2410"] }

/-! ## SDK callbacks, catalog and index operations -/

/-- Response header `CThostFtdcRspInfoField` of an SDK callback. -/
structure CThostFtdcRspInfoField where
  ErrorID : Int
  ErrorMsg : String

/-- Callback `MarketDataSpi::OnRspUserLogin`: it logs the outcome and does
nothing else, whichever branch is taken. -/
def MarketDataSpi.OnRspUserLogin (server : MarketDataServer)
    (pRspInfo : Option CThostFtdcRspInfoField) : MarketDataServer :=
  match pRspInfo with
  | some info => if info.ErrorID != 0 then server else server
  | none => server

/-- A call that touches the subscription index.  `remove_session` carries the
session objects as they are when the call is made, and whether the session has
an owner besides the sessions table at that moment. -/
inductive IndexOp where
  | subscribe_instrument (session_id instrument_id : String)
  | unsubscribe_instrument (session_id instrument_id : String)
  | remove_session (deref : String → WebSocketSession) (session_id : String) (shared : Bool)

/-- One call on the index. -/
def IndexOp.apply (srv : MarketDataServer) : IndexOp → Option MarketDataServer
  | .subscribe_instrument s i => some (srv.subscribe_instrument s i)
  | .unsubscribe_instrument s i => some (srv.unsubscribe_instrument s i)
  | .remove_session deref s shared => srv.remove_session deref s shared

/-- A sequence of calls on the index, oldest first. -/
def IndexOp.run (srv : MarketDataServer) : List IndexOp → Option MarketDataServer
  | [] => some srv
  | op :: rest =>
    match op.apply srv with
    | none => none
    | some srv1 => IndexOp.run srv1 rest

/-- Whether the call leaves the session an owner: true of every call except a
`remove_session` made when the sessions table may hold the last `shared_ptr`. -/
def IndexOp.shared : IndexOp → Bool
  | .remove_session _ _ shared => shared
  | _ => true

/-- The catalog's raw keys in iteration order, none when the catalog is
absent. -/
def MarketDataServer.catalog (srv : MarketDataServer) : List String :=
  srv.ins_map_.getD []

/-- The listing as the specification words it: each key of the catalog cut at
its first NUL, in iteration order, empty results left out. -/
def get_all_instruments_spec (catalog : List String) : List String :=
  (catalog.map cstr).filter (fun key => key != "")

/-- The search as the specification words it: the listed instruments, in
order, whose lower-cased name has the lower-cased pattern as a substring. -/
def search_instruments_spec (listed : List String) (pattern : String) : List String :=
  listed.filter (fun key =>
    decide ((MarketDataServer.to_lower pattern).data <:+: (MarketDataServer.to_lower key).data))

/-- The `instrument_list` frame for the given instruments. -/
def instrument_list_frame (instruments : List String) : Message :=
  .obj [("type", .str "instrument_list"),
        ("instruments", .arr (instruments.map JsonValue.str)),
        ("count", .int instruments.length)]

/-- The `search_result` frame for the given pattern and instruments. -/
def search_result_frame (pattern : String) (instruments : List String) : Message :=
  .obj [("type", .str "search_result"), ("pattern", .str pattern),
        ("instruments", .arr (instruments.map JsonValue.str)),
        ("count", .int instruments.length)]

/-- A server whose catalog holds `cu2412`, `rb2410` and `rb2501`. -/
def MarketDataServer.with_sample_catalog : MarketDataServer :=
  { MarketDataServer.create "9999" with ins_map_ := some ["cu2412", "rb2410", "rb2501"] }

/-- No instrument has an entry with an empty subscriber set (single-connection
mode). -/
def MarketDataServer.NoEmptyEntry (srv : MarketDataServer) : Prop :=
  srv.use_multi_ctp_mode_ = false ∧
  ∀ i subs, srv.instrument_subscribers_ i = some subs → subs ≠ []

/-! ## Fan-out of a tick -/

/-- Member `MarketDataServer::broadcast_market_data`, on the server together
with the session objects: the subscribers of the instrument are visited in the
order of the set, and each one found in the sessions table gets the payload
through `send_message`. -/
def World.broadcast_market_data (w : World) (instrument_id : String) (json_data : Message) :
    World :=
  match w.server.instrument_subscribers_ instrument_id with
  | none => w
  | some subscribers =>
    { server := w.server
      session := subscribers.foldl (fun sessions session_id =>
        if w.server.sessions_ session_id then
          Function.update sessions session_id ((sessions session_id).send_message json_data)
        else sessions) w.session }

/-- Two registered sessions subscribed to `rb2410`, and a third subscriber id
that is not in the sessions table, on a logged-in server. -/
def sample_world : World :=
  { server :=
      ((((MarketDataServer.logged_in "9999").add_session "session_1").add_session
        "session_2").subscribe_instrument "session_1" "rb2410").subscribe_instrument
          "session_2" "rb2410" |>.subscribe_instrument "session_3" "rb2410"
    session := rb2410_holder }

/-! ## Depth ticks and the cache -/

/-- Depth tick `CThostFtdcDepthMarketDataField`, the fields the callback reads:
character arrays by their content, doubles by their 64-bit pattern, volumes as
`int`. -/
structure CThostFtdcDepthMarketDataField where
  TradingDay : String
  InstrumentID : String
  LastPrice : Nat
  PreSettlementPrice : Nat
  PreClosePrice : Nat
  OpenInterest : Nat
  OpenPrice : Nat
  HighestPrice : Nat
  LowestPrice : Nat
  Volume : Int
  Turnover : Nat
  UpperLimitPrice : Nat
  LowerLimitPrice : Nat
  UpdateTime : String
  BidPrice1 : Nat
  BidVolume1 : Int
  AskPrice1 : Nat
  AskVolume1 : Int

/-- The document `market_data` built by `OnRtnDepthMarketData`; `now` is the
clock reading in milliseconds.  `StringRef` of a character array reads it as a
C string. -/
def market_data_document (tick : CThostFtdcDepthMarketDataField) (now : Int) : JsonValue :=
  .obj [("type", .str "market_data"),
        ("instrument_id", .str (cstr tick.InstrumentID)),
        ("trading_day", .str (cstr tick.TradingDay)),
        ("update_time", .str (cstr tick.UpdateTime)),
        ("last_price", .double tick.LastPrice),
        ("pre_settlement_price", .double tick.PreSettlementPrice),
        ("pre_close_price", .double tick.PreClosePrice),
        ("open_price", .double tick.OpenPrice),
        ("highest_price", .double tick.HighestPrice),
        ("lowest_price", .double tick.LowestPrice),
        ("volume", .int tick.Volume),
        ("turnover", .double tick.Turnover),
        ("open_interest", .double tick.OpenInterest),
        ("upper_limit_price", .double tick.UpperLimitPrice),
        ("lower_limit_price", .double tick.LowerLimitPrice),
        ("bid_price1", .double tick.BidPrice1),
        ("bid_volume1", .int tick.BidVolume1),
        ("ask_price1", .double tick.AskPrice1),
        ("ask_volume1", .int tick.AskVolume1),
        ("timestamp", .int now)]

/-- A value written to the cache: a string, the decimal text of a double or of
an `int` (`std::to_string`), or the serialised tick. -/
inductive CacheValue where
  | text (s : String)
  | double_text (bits : Nat)
  | int_text (n : Int)
  | json (doc : JsonValue)

/-- Modelled from the spec: a request on the cache client, whose class is not
part of the sources; the surface is `set(key, value)` and
`hset(key, field, value)`, both answering with a boolean. -/
inductive RedisCall where
  | set (key : String) (value : CacheValue)
  | hset (key field : String) (value : CacheValue)

/-- Modelled from the spec: the cache client, whose class is not part of the
sources: whether `is_connected()` holds, and the requests made so far, each
with the answer it got. -/
structure RedisClient where
  connected : Bool
  calls : List (RedisCall × Bool)

/-- One request on the cache client; `reply` is what the client answers. -/
def RedisClient.call (client : RedisClient) (reply : RedisCall → Bool) (request : RedisCall) :
    RedisClient :=
  { client with calls := client.calls ++ [(request, reply request)] }

/-- What `OnRtnDepthMarketData` leaves behind: the server with its sessions,
the cache client, and the warnings it logged. -/
structure TickOutcome where
  world : World
  redis_client : Option RedisClient
  warnings : List String

/-- Callback `MarketDataSpi::OnRtnDepthMarketData`.  `redis_client` is the
server's cache client (`none` when the pointer is null), `reply` the answers of
the cache, `now` the clock reading. -/
def MarketDataSpi.OnRtnDepthMarketData (w : World) (redis_client : Option RedisClient)
    (reply : RedisCall → Bool) (now : Int)
    (pDepthMarketData : Option CThostFtdcDepthMarketDataField) : TickOutcome :=
  match pDepthMarketData with
  | none => { world := w, redis_client := redis_client, warnings := [] }
  | some tick =>
    let json_data := market_data_document tick now
    let instrument_id := cstr tick.InstrumentID
    let stored : Option RedisClient × List String :=
      match redis_client with
      | none => (none, [])
      | some client =>
        if client.connected then
          let redis_key := "market_data:" ++ instrument_id
          let set_request := RedisCall.set redis_key (CacheValue.json json_data)
          let warnings :=
            if !reply set_request then
              ["Failed to store market data to Redis for instrument: " ++ instrument_id]
            else []
          let hash_key := "market_data_hash:" ++ instrument_id
          let client1 := client.call reply set_request
          let client2 := client1.call reply
            (RedisCall.hset hash_key "last_price" (CacheValue.double_text tick.LastPrice))
          let client3 := client2.call reply
            (RedisCall.hset hash_key "volume" (CacheValue.int_text tick.Volume))
          let client4 := client3.call reply
            (RedisCall.hset hash_key "update_time" (CacheValue.text (cstr tick.UpdateTime)))
          let client5 := client4.call reply
            (RedisCall.hset hash_key "trading_day" (CacheValue.text (cstr tick.TradingDay)))
          let client6 := client5.call reply
            (RedisCall.hset hash_key "json_data" (CacheValue.json json_data))
          (some client6, warnings)
        else (some client, [])
    { world := w.broadcast_market_data instrument_id json_data
      redis_client := stored.1
      warnings := stored.2 }

/-- The member names of the tick payload after `type`, in order. -/
def tick_member_names : List String :=
  ["instrument_id", "trading_day", "update_time", "last_price", "pre_settlement_price",
   "pre_close_price", "open_price", "highest_price", "lowest_price", "volume", "turnover",
   "open_interest", "upper_limit_price", "lower_limit_price", "bid_price1", "bid_volume1",
   "ask_price1", "ask_volume1", "timestamp"]

/-! ## Read and write completions, and the end of a session object -/

/-- Outcome of a read as `on_read` tells them apart: no error,
`websocket::error::closed`, or any other error. -/
inductive ReadStatus where
  | ok
  | closed
  | error

/-- Destructor `~WebSocketSession`: the session reports itself to
`remove_session`.  It runs when no `shared_ptr` to the session is left. -/
def World.destroy_session (w : World) (session_id : String) : Option World :=
  match w.server.remove_session w.session session_id false with
  | none => none
  | some server1 => some { w with server := server1 }

/-- A completion handler that returns without starting a new operation gives up
the `shared_ptr` it held.  The object is destroyed only when no reference is
left: the sessions table holds one for every registered session
(`add_session`), and every write in flight holds one. -/
def World.release_handler (w : World) (session_id : String) : Option World :=
  if w.server.sessions_ session_id || decide (0 < (w.session session_id).ws_.writes_in_flight)
  then some w
  else w.destroy_session session_id

/-- Member `on_read`, run by the session with the given id.  On `closed` or
another error it logs and returns; otherwise it handles the message and reads
on. -/
def World.on_read (w : World) (session_id : String) (ec : ReadStatus) (now : Int)
    (parsed : Option JsonValue) : Option World :=
  match ec with
  | .closed => w.release_handler session_id
  | .error => w.release_handler session_id
  | .ok => w.handle_message session_id now parsed

/-- Member `on_write`, run by the session with the given id when its write in
flight completes; `ec` is true when the write failed. -/
def World.on_write (w : World) (session_id : String) (ec : Bool) : Option World :=
  let session1 := (WriteEvent.completion ec).apply (w.session session_id)
  let w1 : World := { w with session := Function.update w.session session_id session1 }
  if ec then w1.release_handler session_id else some w1

/-- An accepted session: `session_1` is in the sessions table of a logged-in
server (`handle_accept` registers every session before it runs). -/
def accepted_world : World :=
  { server := (MarketDataServer.logged_in "9999").add_session "session_1"
    session := fun session_id => WebSocketSession.create session_id }

/-- What is left of `session_1` and `rb2410` in a world: whether the session
is in the sessions table, the subscribers of `rb2410`, the upstream requests
made so far, and how many frames one more tick for `rb2410` adds to what
`session_1` has accepted. -/
def footprint (w : World) : Bool × List String × List CtpCall × Nat :=
  (w.server.sessions_ "session_1",
   w.server.subscribers "rb2410",
   w.server.ctp_calls,
   ((w.broadcast_market_data "rb2410" (JsonValue.str "tick")).session
      "session_1").enqueued.length - (w.session "session_1").enqueued.length)

end MarketData

/-! # Properties -/

namespace MarketData

/-! ## Sets of strings -/

section StrSetLemmas

theorem StrSet.mem_place (x a : String) (l : List String) :
    x ∈ StrSet.place a l ↔ x = a ∨ x ∈ l := by
  induction l with
  | nil => simp [StrSet.place]
  | cons y ys ih =>
    unfold StrSet.place
    split
    · simp
    · simp only [List.mem_cons, ih]
      tauto

theorem StrSet.length_place (a : String) (l : List String) :
    (StrSet.place a l).length = l.length + 1 := by
  induction l with
  | nil => simp [StrSet.place]
  | cons y ys ih =>
    unfold StrSet.place
    split
    · simp
    · simp [ih]

theorem StrSet.nodup_place (a : String) (l : List String) (ha : a ∉ l) (h : l.Nodup) :
    (StrSet.place a l).Nodup := by
  induction l with
  | nil => simp [StrSet.place]
  | cons y ys ih =>
    have hne : a ≠ y := fun he => ha (by simp [he])
    have hys : a ∉ ys := fun hm => ha (List.mem_cons_of_mem _ hm)
    unfold StrSet.place
    split
    · exact List.nodup_cons.2 ⟨ha, h⟩
    · rw [List.nodup_cons] at h ⊢
      refine ⟨?_, ih hys h.2⟩
      rw [StrSet.mem_place]
      rintro (he | hm)
      · exact hne he.symm
      · exact h.1 hm

theorem StrSet.mem_insert (x a : String) (l : List String) :
    x ∈ StrSet.insert a l ↔ x = a ∨ x ∈ l := by
  unfold StrSet.insert
  split
  · rename_i h
    constructor
    · exact Or.inr
    · rintro (he | hm)
      · exact he ▸ h
      · exact hm
  · exact StrSet.mem_place x a l

theorem StrSet.insert_ne_nil (a : String) (l : List String) : StrSet.insert a l ≠ [] := by
  intro h
  have := (StrSet.mem_insert a a l).2 (Or.inl rfl)
  rw [h] at this
  exact List.not_mem_nil _ this

theorem StrSet.nodup_insert (a : String) (l : List String) (h : l.Nodup) :
    (StrSet.insert a l).Nodup := by
  unfold StrSet.insert
  split
  · exact h
  · rename_i ha
    exact StrSet.nodup_place a l ha h

theorem StrSet.length_insert_le (a : String) (l : List String) :
    (StrSet.insert a l).length ≤ l.length + 1 := by
  unfold StrSet.insert
  split
  · omega
  · rw [StrSet.length_place]

theorem StrSet.mem_erase (x a : String) (l : List String) :
    x ∈ StrSet.erase a l ↔ x ∈ l ∧ x ≠ a := by
  simp [StrSet.erase]

theorem StrSet.nodup_erase (a : String) (l : List String) (h : l.Nodup) :
    (StrSet.erase a l).Nodup :=
  h.filter _

theorem StrSet.length_erase_le (a : String) (l : List String) :
    (StrSet.erase a l).length ≤ l.length :=
  List.length_filter_le _ _

theorem StrSet.erase_of_not_mem (a : String) (l : List String) (h : a ∉ l) :
    StrSet.erase a l = l := by
  unfold StrSet.erase
  rw [List.filter_eq_self]
  intro y hy
  have : y ≠ a := fun he => h (he ▸ hy)
  simpa using this

theorem StrSet.erase_place (a : String) (l : List String) (h : a ∉ l) :
    StrSet.erase a (StrSet.place a l) = l := by
  induction l with
  | nil => simp [StrSet.place, StrSet.erase]
  | cons y ys ih =>
    have hne : a ≠ y := fun he => h (by simp [he])
    have hys : a ∉ ys := fun hm => h (List.mem_cons_of_mem _ hm)
    unfold StrSet.place
    split
    · have := StrSet.erase_of_not_mem a (y :: ys) h
      simpa [StrSet.erase] using this
    · have hy : (y != a) = true := by simpa using (Ne.symm hne)
      have := ih hys
      unfold StrSet.erase at this ⊢
      rw [List.filter_cons, if_pos hy, this]

theorem StrSet.erase_insert (a : String) (l : List String) (h : a ∉ l) :
    StrSet.erase a (StrSet.insert a l) = l := by
  unfold StrSet.insert
  rw [if_neg h]
  exact StrSet.erase_place a l h

end StrSetLemmas

theorem StrSet.mem_insert_all (x : String) (ids set : List String) :
    x ∈ StrSet.insert_all ids set ↔ x ∈ set ∨ x ∈ ids := by
  induction ids generalizing set with
  | nil => simp [StrSet.insert_all]
  | cons i rest ih =>
    have h := ih (StrSet.insert i set)
    simp only [StrSet.insert_all, List.foldl_cons] at h ⊢
    rw [h, StrSet.mem_insert, List.mem_cons]
    tauto

theorem StrSet.nodup_insert_all (ids set : List String) (h : set.Nodup) :
    (StrSet.insert_all ids set).Nodup := by
  induction ids generalizing set with
  | nil => exact h
  | cons i rest ih => exact ih (StrSet.insert i set) (StrSet.nodup_insert i set h)

theorem StrSet.length_insert_all_le (ids set : List String) :
    (StrSet.insert_all ids set).length ≤ set.length + ids.length := by
  induction ids generalizing set with
  | nil => simp [StrSet.insert_all]
  | cons i rest ih =>
    have h := ih (StrSet.insert i set)
    have h2 := StrSet.length_insert_le i set
    simp only [StrSet.insert_all, List.foldl_cons, List.length_cons] at h ⊢
    omega

theorem StrSet.mem_erase_all (x : String) (ids set : List String) :
    x ∈ StrSet.erase_all ids set ↔ x ∈ set ∧ x ∉ ids := by
  induction ids generalizing set with
  | nil => simp [StrSet.erase_all]
  | cons i rest ih =>
    have h := ih (StrSet.erase i set)
    simp only [StrSet.erase_all, List.foldl_cons] at h ⊢
    rw [h, StrSet.mem_erase, List.mem_cons]
    tauto

theorem StrSet.nodup_erase_all (ids set : List String) (h : set.Nodup) :
    (StrSet.erase_all ids set).Nodup := by
  induction ids generalizing set with
  | nil => exact h
  | cons i rest ih => exact ih (StrSet.erase i set) (StrSet.nodup_erase i set h)

theorem StrSet.length_erase_all_le (ids set : List String) :
    (StrSet.erase_all ids set).length ≤ set.length := by
  induction ids generalizing set with
  | nil => simp [StrSet.erase_all]
  | cons i rest ih =>
    have h := ih (StrSet.erase i set)
    have h2 := StrSet.length_erase_le i set
    simp only [StrSet.erase_all, List.foldl_cons] at h ⊢
    omega

theorem static_cast_int_of_lt (n : Nat) (h : n < 2 ^ 31) : static_cast_int n = n := by
  unfold static_cast_int
  omega

theorem length_requested_instruments_le (l : List JsonValue) :
    (requested_instruments l).length ≤ l.length := by
  induction l with
  | nil => simp [requested_instruments]
  | cons v rest ih => cases v <;> simp [requested_instruments] <;> omega

/-! ## Write queue -/

section WriteQueue

open WebSocketSession

theorem enqueued_start_write (self : WebSocketSession) :
    (start_write self).enqueued = self.enqueued := by
  unfold start_write enqueued
  cases h : self.message_queue_ <;> simp [WsStream.async_write]

theorem written_start_write (self : WebSocketSession) :
    self.ws_.written <+: (start_write self).ws_.written := by
  unfold start_write
  cases h : self.message_queue_ <;> simp [WsStream.async_write]

theorem enqueued_apply (self : WebSocketSession) (e : WriteEvent) :
    (e.apply self).enqueued = self.enqueued ++ WriteEvent.sent [e] := by
  cases e with
  | send message =>
    simp only [WriteEvent.apply, send_message, WriteEvent.sent]
    split
    · rw [enqueued_start_write]; simp [enqueued]
    · simp [enqueued]
  | completion ec =>
    simp only [WriteEvent.apply, WriteEvent.sent, List.append_nil]
    split
    · rfl
    · unfold on_write
      split
      · simp [enqueued]
      · rw [enqueued_start_write]; simp [enqueued]

theorem written_apply (self : WebSocketSession) (e : WriteEvent) :
    self.ws_.written <+: (e.apply self).ws_.written := by
  cases e with
  | send message =>
    simp only [WriteEvent.apply, send_message]
    split
    · exact written_start_write
        { self with message_queue_ := self.message_queue_ ++ [message], is_writing_ := true }
    · exact List.prefix_refl _
  | completion ec =>
    simp only [WriteEvent.apply]
    split
    · exact List.prefix_refl _
    · rename_i n _
      unfold on_write
      split
      · exact List.prefix_refl _
      · exact written_start_write
          { self with ws_ := { self.ws_ with writes_in_flight := n } }

theorem sent_cons (e : WriteEvent) (events : List WriteEvent) :
    WriteEvent.sent (e :: events) = WriteEvent.sent [e] ++ WriteEvent.sent events := by
  cases e <;> simp [WriteEvent.sent]

theorem enqueued_run (events : List WriteEvent) (self : WebSocketSession) :
    (WriteEvent.run self events).enqueued = self.enqueued ++ WriteEvent.sent events := by
  induction events generalizing self with
  | nil => simp [WriteEvent.run, WriteEvent.sent]
  | cons e rest ih =>
    have h := ih (e.apply self)
    simp only [WriteEvent.run, List.foldl_cons] at h ⊢
    rw [h, enqueued_apply, sent_cons e rest, List.append_assoc]

theorem written_run (events : List WriteEvent) (self : WebSocketSession) :
    self.ws_.written <+: (WriteEvent.run self events).ws_.written := by
  induction events generalizing self with
  | nil => exact List.prefix_refl _
  | cons e rest ih =>
    have h := ih (e.apply self)
    simp only [WriteEvent.run, List.foldl_cons] at h ⊢
    exact (written_apply self e).trans h

theorem writeInv_create (session_id : String) : WriteInv (create session_id) :=
  Or.inr ⟨rfl, rfl⟩

theorem writeInv_start_write_of_ne_nil (self : WebSocketSession)
    (hq : self.message_queue_ ≠ []) (hw : self.ws_.writes_in_flight = 0)
    (hf : self.is_writing_ = true) : WriteInv (start_write self) := by
  unfold start_write
  cases h : self.message_queue_ with
  | nil => exact absurd h hq
  | cons m rest => exact Or.inl ⟨by simpa using hf, by simp [WsStream.async_write, hw]⟩

theorem writeInv_start_write (self : WebSocketSession)
    (hw : self.ws_.writes_in_flight = 0) (hf : self.is_writing_ = true) :
    WriteInv (start_write self) := by
  by_cases hq : self.message_queue_ = []
  · unfold start_write
    rw [hq]
    exact Or.inr ⟨rfl, hw⟩
  · exact writeInv_start_write_of_ne_nil self hq hw hf

theorem writeInv_apply (self : WebSocketSession) (e : WriteEvent) (h : WriteInv self) :
    WriteInv (e.apply self) := by
  cases e with
  | send message =>
    simp only [WriteEvent.apply, send_message]
    rcases h with ⟨hf, hw⟩ | ⟨hf, hw⟩
    · simp only [hf, Bool.not_true, Bool.false_eq_true, if_false]
      exact Or.inl ⟨rfl, hw⟩
    · simp only [hf, Bool.not_false, if_true]
      exact writeInv_start_write_of_ne_nil _ (by simp) hw rfl
  | completion ec =>
    simp only [WriteEvent.apply]
    rcases h with ⟨hf, hw⟩ | ⟨hf, hw⟩
    · rw [hw]
      simp only [on_write]
      split
      · exact Or.inr ⟨rfl, rfl⟩
      · exact writeInv_start_write _ rfl hf
    · rw [hw]
      exact Or.inr ⟨hf, hw⟩

theorem writeInv_run (events : List WriteEvent) (self : WebSocketSession)
    (h : WriteInv self) : WriteInv (WriteEvent.run self events) := by
  induction events generalizing self with
  | nil => exact h
  | cons e rest ih => exact ih (e.apply self) (writeInv_apply self e h)

theorem send_message_is_writing (self : WebSocketSession) (message : Message) :
    (self.send_message message).is_writing_ = true := by
  simp only [send_message]
  split
  · unfold start_write
    cases h : self.message_queue_ ++ [message] with
    | nil => simp at h
    | cons m rest => simp [h]
  · rename_i hf
    simpa using hf

theorem ws_start_write (self : WebSocketSession) :
    (start_write self).ws_ = self.ws_ ∨
    ∃ message, (start_write self).ws_ = self.ws_.async_write message := by
  unfold start_write
  cases h : self.message_queue_ with
  | nil => exact Or.inl rfl
  | cons m rest => exact Or.inr ⟨m, rfl⟩

theorem ws_apply (self : WebSocketSession) (e : WriteEvent) :
    (e.apply self).ws_.written = self.ws_.written ∨
    ∃ message, (e.apply self).ws_.written = self.ws_.written ++ [message] := by
  cases e with
  | send message =>
    simp only [WriteEvent.apply, send_message]
    split
    · rcases ws_start_write
        { self with message_queue_ := self.message_queue_ ++ [message], is_writing_ := true }
        with h | ⟨m, h⟩
      · exact Or.inl (by rw [h])
      · exact Or.inr ⟨m, by rw [h]; rfl⟩
    · exact Or.inl rfl
  | completion ec =>
    simp only [WriteEvent.apply]
    split
    · exact Or.inl rfl
    · rename_i n _
      unfold on_write
      split
      · exact Or.inl rfl
      · rcases ws_start_write { self with ws_ := { self.ws_ with writes_in_flight := n } }
          with h | ⟨m, h⟩
        · exact Or.inl (by rw [h])
        · exact Or.inr ⟨m, by rw [h]; rfl⟩

theorem in_flight_of_issue (self : WebSocketSession) (e : WriteEvent) (h : WriteInv self)
    (hgrow : self.ws_.written.length < (e.apply self).ws_.written.length) :
    (e.apply self).ws_.writes_in_flight = 1 := by
  rcases writeInv_apply self e h with ⟨_, hw⟩ | ⟨hf, hw⟩
  · exact hw
  · exfalso
    cases e with
    | send message =>
      rw [WriteEvent.apply, send_message_is_writing] at hf
      exact Bool.noConfusion hf
    | completion ec =>
      simp only [WriteEvent.apply] at hgrow hf hw
      rcases h with ⟨hf0, hw0⟩ | ⟨hf0, hw0⟩
      · rw [hw0] at hgrow hf hw
        simp only [on_write] at hgrow hf hw
        split at hgrow
        · simp at hgrow
        · rename_i hec
          simp only [hec] at hw hf
          unfold start_write at hgrow hw
          cases hq : self.message_queue_ with
          | nil => simp [hq] at hgrow
          | cons m rest => simp [hq, WsStream.async_write] at hw
      · rw [hw0] at hgrow
        simp at hgrow

/-- C9: along every interleaving of `send_message` calls and write completions
(successful or failed), the frames handed to `async_write` are, in order, an
initial part of the frames enqueued so far (those accepted before the
interleaving followed by the arguments of its `send_message` calls); together
with the frames still queued they are exactly that sequence; and what was handed
over earlier stays in front. -/
theorem write_order_preserved (self : WebSocketSession) (events : List WriteEvent) :
    (WriteEvent.run self events).ws_.written <+: self.enqueued ++ WriteEvent.sent events ∧
    (WriteEvent.run self events).ws_.written ++ (WriteEvent.run self events).message_queue_
      = self.enqueued ++ WriteEvent.sent events ∧
    self.ws_.written <+: (WriteEvent.run self events).ws_.written := by
  have h := enqueued_run events self
  refine ⟨?_, h, written_run events self⟩
  rw [← h]
  exact List.prefix_append _ _

/-- C10: after every interleaving of `send_message` calls and write completions
on a session, at most one write is in flight; `is_writing_` is set exactly when
one is; any further event issues at most one `async_write`, and when it issues
one that write is the only one in flight afterwards (the previous one, if any,
had completed); and `send_message` never leaves the flag clear, so only the
completion handler clears it. -/
theorem single_write_in_flight (session_id : String) (events : List WriteEvent) :
    (WriteEvent.run (create session_id) events).ws_.writes_in_flight ≤ 1 ∧
    ((WriteEvent.run (create session_id) events).is_writing_ = true ↔
      (WriteEvent.run (create session_id) events).ws_.writes_in_flight = 1) ∧
    (∀ e : WriteEvent,
      WriteEvent.writes_issued (WriteEvent.run (create session_id) events) e ≤ 1 ∧
      (0 < WriteEvent.writes_issued (WriteEvent.run (create session_id) events) e →
        (e.apply (WriteEvent.run (create session_id) events)).ws_.writes_in_flight = 1)) ∧
    (∀ message : Message,
      ((WriteEvent.run (create session_id) events).send_message message).is_writing_ = true) := by
  have hinv := writeInv_run events (create session_id) (writeInv_create session_id)
  refine ⟨?_, ?_, ?_, fun m => send_message_is_writing _ m⟩
  · rcases hinv with ⟨_, hw⟩ | ⟨_, hw⟩ <;> omega
  · rcases hinv with ⟨hf, hw⟩ | ⟨hf, hw⟩
    · simp [hf, hw]
    · simp [hf, hw]
  · intro e
    refine ⟨?_, fun hpos => in_flight_of_issue _ e hinv ?_⟩
    · unfold WriteEvent.writes_issued
      rcases ws_apply (WriteEvent.run (create session_id) events) e with h | ⟨m, h⟩
      · rw [h]; omega
      · rw [h]; simp
    · unfold WriteEvent.writes_issued at hpos
      omega

end WriteQueue

/-! ## Request handling -/

section RequestHandling

open WebSocketSession

theorem send_message_enqueued (self : WebSocketSession) (message : Message) :
    (self.send_message message).enqueued = self.enqueued ++ [message] :=
  enqueued_apply self (WriteEvent.send message)

theorem start_write_fields (self : WebSocketSession) :
    (start_write self).subscriptions_ = self.subscriptions_ ∧
    (start_write self).session_id_ = self.session_id_ ∧
    (start_write self).ws_.closed = self.ws_.closed := by
  unfold start_write
  cases h : self.message_queue_ <;> simp [WsStream.async_write]

theorem send_message_fields (self : WebSocketSession) (message : Message) :
    (self.send_message message).subscriptions_ = self.subscriptions_ ∧
    (self.send_message message).session_id_ = self.session_id_ ∧
    (self.send_message message).ws_.closed = self.ws_.closed := by
  simp only [send_message]
  split
  · exact start_write_fields
      { self with message_queue_ := self.message_queue_ ++ [message], is_writing_ := true }
  · exact ⟨rfl, rfl, rfl⟩

theorem subscribe_loop_fst (l : List JsonValue) (self : WebSocketSession)
    (server : MarketDataServer) :
    (subscribe_loop l self server).1 =
      { self with subscriptions_ :=
          StrSet.insert_all (requested_instruments l) self.subscriptions_ } := by
  induction l generalizing self server with
  | nil => rfl
  | cons v rest ih =>
    cases v <;> simp [subscribe_loop, requested_instruments, ih, StrSet.insert_all]

theorem subscribe_loop_snd (l : List JsonValue) (self : WebSocketSession)
    (server : MarketDataServer) :
    (subscribe_loop l self server).2 =
      (requested_instruments l).foldl
        (fun srv i => srv.subscribe_instrument self.session_id_ i) server := by
  induction l generalizing self server with
  | nil => rfl
  | cons v rest ih =>
    cases v <;> simp [subscribe_loop, requested_instruments, ih]

theorem unsubscribe_loop_fst (l : List JsonValue) (self : WebSocketSession)
    (server : MarketDataServer) :
    (unsubscribe_loop l self server).1 =
      { self with subscriptions_ :=
          StrSet.erase_all (requested_instruments l) self.subscriptions_ } := by
  induction l generalizing self server with
  | nil => rfl
  | cons v rest ih =>
    cases v <;> simp [unsubscribe_loop, requested_instruments, ih, StrSet.erase_all]

theorem unsubscribe_loop_snd (l : List JsonValue) (self : WebSocketSession)
    (server : MarketDataServer) :
    (unsubscribe_loop l self server).2 =
      (requested_instruments l).foldl
        (fun srv i => srv.unsubscribe_instrument self.session_id_ i) server := by
  induction l generalizing self server with
  | nil => rfl
  | cons v rest ih =>
    cases v <;> simp [unsubscribe_loop, requested_instruments, ih]

/-- A frame of one of the protocol-error classes is answered by `send_error`
and nothing else happens. -/
theorem handle_message_protocol_error (self : WebSocketSession) (server : MarketDataServer)
    (now : Int) (frame : Frame) (h : ProtocolError frame) :
    ∃ error_msg, self.handle_message server now frame.parsed =
      some (self.send_error error_msg now, server) := by
  cases h with
  | invalid_json => exact ⟨_, rfl⟩
  | no_action doc h =>
    simp only [Frame.parsed, handle_message]
    exact ⟨_, rfl⟩
  | no_instruments doc a ha hs h =>
    simp only [Frame.parsed, handle_message, ha]
    rcases hs with hs | hs
    · rw [if_pos hs]
      exact ⟨_, rfl⟩
    · have hne : cstr a ≠ "subscribe" := by rw [hs]; decide
      rw [if_neg hne, if_pos hs]
      exact ⟨_, rfl⟩
  | no_pattern doc a ha hs h =>
    have h1 : cstr a ≠ "subscribe" := by rw [hs]; decide
    have h2 : cstr a ≠ "unsubscribe" := by rw [hs]; decide
    have h3 : cstr a ≠ "list_instruments" := by rw [hs]; decide
    simp only [Frame.parsed, handle_message, ha]
    rw [if_neg h1, if_neg h2, if_neg h3, if_pos hs]
    exact ⟨_, rfl⟩
  | unknown_action doc a ha h1 h2 h3 h4 =>
    simp only [Frame.parsed, handle_message, ha]
    rw [if_neg h1, if_neg h2, if_neg h3, if_neg h4]
    exact ⟨_, rfl⟩

/-- For a frame that is not JSON or is a JSON object, each protocol-error class
gets exactly one `error` frame with message and timestamp, and the session's
subscriptions, the server and the transport's open state stay as they were. -/
theorem protocol_error_single_error_frame (self : WebSocketSession)
    (server : MarketDataServer) (now : Int) (frame : Frame) (h : ProtocolError frame) :
    ∃ r message, self.handle_message server now frame.parsed = some r ∧
      r.1.enqueued = self.enqueued ++ [error_frame message now] ∧
      r.1.subscriptions_ = self.subscriptions_ ∧
      r.1.ws_.closed = self.ws_.closed ∧
      r.2 = server := by
  obtain ⟨error_msg, he⟩ := handle_message_protocol_error self server now frame h
  refine ⟨_, cstr error_msg, he, ?_, ?_, ?_, rfl⟩
  · exact send_message_enqueued self _
  · exact (send_message_fields self _).1
  · exact (send_message_fields self _).2.2

/-- C7 (failing input): a frame whose text is valid JSON but not an object, such
as `42`, lacks a string `action`, yet `handle_message` has no result for it:
`HasMember` is called on a document that is not an object, and no `error` frame
is enqueued. -/
theorem handle_message_non_object_root (self : WebSocketSession) (server : MarketDataServer)
    (now n : Int) :
    self.handle_message server now (some (JsonValue.int n)) = none :=
  rfl

/-- C8: a `subscribe` (resp. `unsubscribe`) request, an object with a string
`action` reading `subscribe` (resp. `unsubscribe`) and an array `instruments`,
is answered by exactly one frame, of type `subscribe_response` (resp.
`unsubscribe_response`), whose `subscribed_count` is the size of the session's
subscription set after every string entry of `instruments` was added to (resp.
removed from) it; that set holds exactly the old members and the named
instruments (resp. the old members not named), each once.  The count is an
`int`, so the sizes are taken below `2 ^ 31`. -/
theorem subscribe_response_count (self : WebSocketSession) (server : MarketDataServer)
    (now : Int) (doc : List (String × JsonValue)) (a : String) (instruments : List JsonValue)
    (haction : JsonValue.FindMember doc "action" = some (.str a))
    (hinst : JsonValue.FindMember doc "instruments" = some (.arr instruments))
    (hnodup : self.subscriptions_.Nodup)
    (hsize : self.subscriptions_.length + instruments.length < 2 ^ 31) :
    (cstr a = "subscribe" →
      ∃ r, self.handle_message server now (some (.obj doc)) = some r ∧
        r.1.enqueued =
          self.enqueued ++ [count_frame "subscribe_response" r.1.subscriptions_.length] ∧
        r.1.subscriptions_.Nodup ∧
        ∀ x, x ∈ r.1.subscriptions_ ↔
          x ∈ self.subscriptions_ ∨ x ∈ requested_instruments instruments) ∧
    (cstr a = "unsubscribe" →
      ∃ r, self.handle_message server now (some (.obj doc)) = some r ∧
        r.1.enqueued =
          self.enqueued ++ [count_frame "unsubscribe_response" r.1.subscriptions_.length] ∧
        r.1.subscriptions_.Nodup ∧
        ∀ x, x ∈ r.1.subscriptions_ ↔
          x ∈ self.subscriptions_ ∧ x ∉ requested_instruments instruments) := by
  have hlen := length_requested_instruments_le instruments
  constructor
  · intro hs
    simp only [handle_message, haction, hinst, if_pos hs]
    refine ⟨_, rfl, ?_, ?_, ?_⟩
    · have hle := StrSet.length_insert_all_le (requested_instruments instruments)
        self.subscriptions_
      simp only [send_response, send_message_enqueued, (send_message_fields _ _).1,
        subscribe_loop_fst, count_frame]
      rw [static_cast_int_of_lt _ (by omega)]
      rfl
    · simp only [send_response, (send_message_fields _ _).1, subscribe_loop_fst]
      exact StrSet.nodup_insert_all _ _ hnodup
    · intro x
      simp only [send_response, (send_message_fields _ _).1, subscribe_loop_fst]
      exact StrSet.mem_insert_all x _ _
  · intro hs
    have hne : cstr a ≠ "subscribe" := by rw [hs]; decide
    simp only [handle_message, haction, hinst, if_neg hne, if_pos hs]
    refine ⟨_, rfl, ?_, ?_, ?_⟩
    · have hle := StrSet.length_erase_all_le (requested_instruments instruments)
        self.subscriptions_
      simp only [send_response, send_message_enqueued, (send_message_fields _ _).1,
        unsubscribe_loop_fst, count_frame]
      rw [static_cast_int_of_lt _ (by omega)]
      rfl
    · simp only [send_response, (send_message_fields _ _).1, unsubscribe_loop_fst]
      exact StrSet.nodup_erase_all _ _ hnodup
    · intro x
      simp only [send_response, (send_message_fields _ _).1, unsubscribe_loop_fst]
      exact StrSet.mem_erase_all x _ _

/-- Witness of `subscribe_response_count`: a fresh session subscribing
`["rb2410"]` gets a `subscribe_response` with `subscribed_count` 1. -/
theorem subscribe_response_count_witness :
    ∃ r, (create "session_1").handle_message (MarketDataServer.create "9999") 0
        (subscribe_request ["rb2410"]).parsed = some r ∧
      r.1.enqueued = [count_frame "subscribe_response" 1] := by
  obtain ⟨r, hr, henq, -, -⟩ :=
    (subscribe_response_count (create "session_1") (MarketDataServer.create "9999") 0
      [("action", .str "subscribe"), ("instruments", .arr [.str "rb2410"])]
      "subscribe" [.str "rb2410"] rfl rfl (by decide) (by decide)).1 (by decide)
  refine ⟨r, hr, ?_⟩
  have h1 : r.1.subscriptions_.length = 1 := by
    cases hr
    rfl
  rw [henq, h1]
  rfl

end RequestHandling

/-! ## Subscription index -/

section SubscriptionIndex

open MarketDataServer

theorem subscribe_instrument_single (srv : MarketDataServer) (s i : String)
    (hmode : srv.use_multi_ctp_mode_ = false) :
    srv.subscribe_instrument s i =
      { srv with
        instrument_subscribers_ :=
          Function.update srv.instrument_subscribers_ i (some (StrSet.insert s (srv.subscribers i)))
        ctp_calls := srv.ctp_calls ++
          (if (StrSet.insert s (srv.subscribers i)).length = 1 ∧ srv.upstream_ready = true
            then [CtpCall.SubscribeMarketData i] else []) } := by
  unfold subscribe_instrument subscribers upstream_ready
  simp only [hmode, Bool.false_eq_true, if_false]
  by_cases h1 : (StrSet.insert s ((srv.instrument_subscribers_ i).getD [])).length = 1 <;>
    by_cases h2 : srv.ctp_api_ = true <;>
    by_cases h3 : srv.ctp_logged_in_ = true <;>
    simp [h1, h2, h3]

theorem unsubscribe_instrument_single (srv : MarketDataServer) (s i : String)
    (hmode : srv.use_multi_ctp_mode_ = false) :
    srv.unsubscribe_instrument s i =
      { srv with
        instrument_subscribers_ :=
          Function.update srv.instrument_subscribers_ i (released s (srv.instrument_subscribers_ i))
        ctp_calls := srv.ctp_calls ++
          (if is_last_subscriber s (srv.instrument_subscribers_ i) = true ∧
              srv.upstream_ready = true
            then [CtpCall.UnSubscribeMarketData i] else []) } := by
  unfold unsubscribe_instrument upstream_ready
  simp only [hmode, Bool.false_eq_true, if_false]
  cases he : srv.instrument_subscribers_ i with
  | none =>
    simp only [released, is_last_subscriber, Bool.false_eq_true, false_and, if_false,
      List.append_nil]
    rw [← he, Function.update_eq_self]
    cases srv
    simp only at hmode
    rw [hmode]
  | some subs =>
    simp only [released, is_last_subscriber]
    by_cases h1 : (StrSet.erase s subs).isEmpty = true <;>
      by_cases h2 : srv.ctp_api_ = true <;>
      by_cases h3 : srv.ctp_logged_in_ = true <;>
      simp [h1, h2, h3]

theorem remove_session_loop_eq (srv : MarketDataServer) (s i : String)
    (hmode : srv.use_multi_ctp_mode_ = false) :
    remove_session_loop s srv i = srv.unsubscribe_instrument s i := by
  unfold remove_session_loop unsubscribe_instrument
  simp [hmode]

theorem subscribers_update (srv : MarketDataServer) (index : String → Option (List String))
    (calls : List CtpCall) (i : String) :
    ({ srv with instrument_subscribers_ := index, ctp_calls := calls } : MarketDataServer).subscribers i
      = (index i).getD [] :=
  rfl

/-- The first subscriber of an instrument triggers one upstream subscribe. -/
theorem subscribe_first_subscriber (srv : MarketDataServer) (s i : String)
    (hmode : srv.use_multi_ctp_mode_ = false) (hready : srv.upstream_ready = true)
    (hnone : srv.subscribers i = []) :
    (srv.subscribe_instrument s i).ctp_calls =
      srv.ctp_calls ++ [CtpCall.SubscribeMarketData i] := by
  rw [subscribe_instrument_single srv s i hmode, hnone]
  simp [StrSet.insert, StrSet.place, hready]

/-- A subscribe for an instrument that another session already holds triggers
no upstream request. -/
theorem subscribe_with_other_subscriber (srv : MarketDataServer) (s t i : String)
    (hmode : srv.use_multi_ctp_mode_ = false)
    (ht : t ∈ srv.subscribers i) (hne : t ≠ s) :
    (srv.subscribe_instrument s i).ctp_calls = srv.ctp_calls := by
  rw [subscribe_instrument_single srv s i hmode]
  have hlen : (StrSet.insert s (srv.subscribers i)).length ≠ 1 := by
    intro h1
    have hs : s ∈ StrSet.insert s (srv.subscribers i) :=
      (StrSet.mem_insert s s _).2 (Or.inl rfl)
    have htm : t ∈ StrSet.insert s (srv.subscribers i) :=
      (StrSet.mem_insert t s _).2 (Or.inr ht)
    obtain ⟨x, hx⟩ := List.length_eq_one.1 h1
    rw [hx] at hs htm
    rw [List.mem_singleton] at hs htm
    exact hne (htm.trans hs.symm)
  simp [hlen]

/-- The sole subscriber of an instrument subscribing again triggers another
upstream subscribe: the test is on the size after insertion. -/
theorem subscribe_again_by_sole_subscriber (srv : MarketDataServer) (s i : String)
    (hmode : srv.use_multi_ctp_mode_ = false) (hready : srv.upstream_ready = true)
    (hsole : srv.subscribers i = [s]) :
    (srv.subscribe_instrument s i).ctp_calls =
      srv.ctp_calls ++ [CtpCall.SubscribeMarketData i] := by
  rw [subscribe_instrument_single srv s i hmode, hsole]
  simp [StrSet.insert, hready]

/-- C3 (failing input): on a logged-in single-connection server, session
`session_1` subscribes `rb2410` twice.  Before the second call the instrument
already has a subscriber, yet both calls issue an upstream
`SubscribeMarketData`. -/
theorem resubscribe_issues_upstream_subscribe_again :
    ((logged_in "9999").subscribe_instrument "session_1" "rb2410").subscribers "rb2410"
      = ["session_1"] ∧
    (((logged_in "9999").subscribe_instrument "session_1" "rb2410").subscribe_instrument
        "session_1" "rb2410").ctp_calls
      = [CtpCall.SubscribeMarketData "rb2410", CtpCall.SubscribeMarketData "rb2410"] := by
  decide

/-- C4: on a single-connection server whose upstream link is logged in,
`unsubscribe_instrument(s, i)` leaves `s` out of the subscribers of `i`, keeps
every other subscriber of `i` and every other instrument as they were, and:
when `i` has an entry that holds no one but `s`, it issues exactly one upstream
`UnSubscribeMarketData` for `i` and drops the entry; when someone else is left
in the entry, it issues nothing and the entry is the old one without `s`; when
`i` has no entry, nothing changes at all. -/
theorem unsubscribe_instrument_spec (srv : MarketDataServer) (s i : String)
    (hmode : srv.use_multi_ctp_mode_ = false) (hready : srv.upstream_ready = true) :
    s ∉ (srv.unsubscribe_instrument s i).subscribers i ∧
    (∀ t, t ≠ s →
      (t ∈ (srv.unsubscribe_instrument s i).subscribers i ↔ t ∈ srv.subscribers i)) ∧
    (∀ j, j ≠ i →
      (srv.unsubscribe_instrument s i).instrument_subscribers_ j
        = srv.instrument_subscribers_ j) ∧
    (∀ subs, srv.instrument_subscribers_ i = some subs → (∀ t ∈ subs, t = s) →
      (srv.unsubscribe_instrument s i).ctp_calls
          = srv.ctp_calls ++ [CtpCall.UnSubscribeMarketData i] ∧
        (srv.unsubscribe_instrument s i).instrument_subscribers_ i = none) ∧
    (∀ subs, srv.instrument_subscribers_ i = some subs → (∃ t ∈ subs, t ≠ s) →
      (srv.unsubscribe_instrument s i).ctp_calls = srv.ctp_calls ∧
        (srv.unsubscribe_instrument s i).instrument_subscribers_ i
          = some (StrSet.erase s subs)) ∧
    (srv.instrument_subscribers_ i = none → srv.unsubscribe_instrument s i = srv) := by
  rw [unsubscribe_instrument_single srv s i hmode]
  have hempty : ∀ subs : List String, (∀ t ∈ subs, t = s) → StrSet.erase s subs = [] := by
    intro subs h
    unfold StrSet.erase
    rw [List.filter_eq_nil_iff]
    intro t ht
    simp [h t ht]
  have hleft : ∀ subs : List String, (∃ t ∈ subs, t ≠ s) → StrSet.erase s subs ≠ [] := by
    rintro subs ⟨t, ht, hne⟩ h
    have : t ∈ StrSet.erase s subs := (StrSet.mem_erase t s subs).2 ⟨ht, hne⟩
    rw [h] at this
    exact List.not_mem_nil _ this
  refine ⟨?_, ?_, ?_, ?_, ?_, ?_⟩
  · rw [subscribers_update, Function.update_same]
    cases he : srv.instrument_subscribers_ i with
    | none => simp [released]
    | some subs =>
      simp only [released]
      split
      · simp
      · simp [StrSet.mem_erase]
  · intro t hne
    rw [subscribers_update, Function.update_same]
    unfold subscribers
    cases he : srv.instrument_subscribers_ i with
    | none => simp [released]
    | some subs =>
      simp only [released]
      split
      · rename_i hemp
        rw [List.isEmpty_iff] at hemp
        have : t ∉ StrSet.erase s subs := by rw [hemp]; exact List.not_mem_nil _
        rw [StrSet.mem_erase] at this
        simp only [Option.getD_none, Option.getD_some, List.not_mem_nil, false_iff]
        exact fun ht => this ⟨ht, hne⟩
      · simp [StrSet.mem_erase, hne]
  · intro j hne
    exact Function.update_noteq hne _ _
  · intro subs he hall
    simp [he, released, is_last_subscriber, hempty subs hall, hready]
  · intro subs he hex
    simp [he, released, is_last_subscriber, hleft subs hex]
  · intro he
    simp only [he, released, is_last_subscriber, Bool.false_eq_true, false_and, if_false,
      List.append_nil]
    rw [← he, Function.update_eq_self]

/-- Witness of `unsubscribe_instrument_spec`: the single subscriber of `rb2410`
unsubscribes on a logged-in server. -/
theorem unsubscribe_instrument_spec_witness :
    (((logged_in "9999").subscribe_instrument "session_1" "rb2410").unsubscribe_instrument
        "session_1" "rb2410").ctp_calls
      = [CtpCall.SubscribeMarketData "rb2410", CtpCall.UnSubscribeMarketData "rb2410"] ∧
    (((logged_in "9999").subscribe_instrument "session_1" "rb2410").unsubscribe_instrument
        "session_1" "rb2410").instrument_subscribers_ "rb2410" = none :=
  (unsubscribe_instrument_spec ((logged_in "9999").subscribe_instrument "session_1" "rb2410")
    "session_1" "rb2410" (by decide) (by decide)).2.2.2.1 ["session_1"] (by decide)
    (by decide)

/-! ### Effect of a run of subscribes or unsubscribes by one session -/

theorem StrSet.insert_insert (a : String) (l : List String) :
    StrSet.insert a (StrSet.insert a l) = StrSet.insert a l := by
  have h : a ∈ StrSet.insert a l := (StrSet.mem_insert a a l).2 (Or.inl rfl)
  generalize StrSet.insert a l = m at h ⊢
  unfold StrSet.insert
  rw [if_pos h]

theorem StrSet.erase_erase (a : String) (l : List String) :
    StrSet.erase a (StrSet.erase a l) = StrSet.erase a l := by
  apply StrSet.erase_of_not_mem
  rw [StrSet.mem_erase]
  exact fun h => h.2 rfl

theorem released_released (s : String) (e : Option (List String)) :
    released s (released s e) = released s e := by
  cases e with
  | none => rfl
  | some subs =>
    by_cases h : (StrSet.erase s subs).isEmpty = true
    · simp [released, h]
    · simp [released, h, StrSet.erase_erase]

theorem getD_released (s : String) (e : Option (List String)) :
    (released s e).getD [] = StrSet.erase s (e.getD []) := by
  cases e with
  | none => rfl
  | some subs =>
    simp only [released]
    split
    · rename_i h
      rw [List.isEmpty_iff] at h
      simp [h]
    · rfl

theorem released_ne_some_nil (s : String) (e : Option (List String)) :
    released s e ≠ some [] := by
  cases e with
  | none => simp [released]
  | some subs =>
    simp only [released]
    split
    · simp
    · rename_i h
      intro he
      rw [Option.some.injEq] at he
      rw [he] at h
      exact h rfl

/-- The fields a run of subscribes leaves alone, and the index it produces. -/
theorem subscribe_fold (k : String) (ids : List String) (srv : MarketDataServer)
    (hmode : srv.use_multi_ctp_mode_ = false) :
    (ids.foldl (fun srv i => srv.subscribe_instrument k i) srv).use_multi_ctp_mode_ = false ∧
    (ids.foldl (fun srv i => srv.subscribe_instrument k i) srv).upstream_ready
      = srv.upstream_ready ∧
    (ids.foldl (fun srv i => srv.subscribe_instrument k i) srv).sessions_ = srv.sessions_ ∧
    ∀ j, (ids.foldl (fun srv i => srv.subscribe_instrument k i) srv).instrument_subscribers_ j
      = if j ∈ ids then some (StrSet.insert k (srv.subscribers j))
        else srv.instrument_subscribers_ j := by
  induction ids generalizing srv with
  | nil => simp [hmode]
  | cons i rest ih =>
    have h1 := subscribe_instrument_single srv k i hmode
    have hmode1 : (srv.subscribe_instrument k i).use_multi_ctp_mode_ = false := by
      rw [h1]; exact hmode
    obtain ⟨hm, hr, hs, hidx⟩ := ih (srv.subscribe_instrument k i) hmode1
    simp only [List.foldl_cons]
    refine ⟨hm, ?_, ?_, ?_⟩
    · rw [hr, h1]; rfl
    · rw [hs, h1]
    · intro j
      rw [hidx j]
      by_cases hj : j ∈ rest
      · rw [if_pos hj, if_pos (List.mem_cons_of_mem _ hj)]
        by_cases hji : j = i
        · subst hji
          rw [h1, subscribers_update, Function.update_same]
          simp [StrSet.insert_insert]
        · rw [h1, subscribers_update, Function.update_noteq hji]
          rfl
      · rw [if_neg hj]
        by_cases hji : j = i
        · subst hji
          rw [if_pos (List.mem_cons_self _ _), h1]
          simp
        · have : j ∉ i :: rest := by
            simp [hji, hj]
          rw [if_neg this, h1]
          simp [Function.update_noteq hji]

/-- The fields a run of unsubscribes leaves alone, and the index it produces. -/
theorem unsubscribe_fold (k : String) (ids : List String) (srv : MarketDataServer)
    (hmode : srv.use_multi_ctp_mode_ = false) :
    (ids.foldl (fun srv i => srv.unsubscribe_instrument k i) srv).use_multi_ctp_mode_ = false ∧
    (ids.foldl (fun srv i => srv.unsubscribe_instrument k i) srv).upstream_ready
      = srv.upstream_ready ∧
    (ids.foldl (fun srv i => srv.unsubscribe_instrument k i) srv).sessions_ = srv.sessions_ ∧
    ∀ j, (ids.foldl (fun srv i => srv.unsubscribe_instrument k i) srv).instrument_subscribers_ j
      = if j ∈ ids then released k (srv.instrument_subscribers_ j)
        else srv.instrument_subscribers_ j := by
  induction ids generalizing srv with
  | nil => simp [hmode]
  | cons i rest ih =>
    have h1 := unsubscribe_instrument_single srv k i hmode
    have hmode1 : (srv.unsubscribe_instrument k i).use_multi_ctp_mode_ = false := by
      rw [h1]; exact hmode
    obtain ⟨hm, hr, hs, hidx⟩ := ih (srv.unsubscribe_instrument k i) hmode1
    simp only [List.foldl_cons]
    refine ⟨hm, ?_, ?_, ?_⟩
    · rw [hr, h1]; rfl
    · rw [hs, h1]
    · intro j
      rw [hidx j]
      by_cases hj : j ∈ rest
      · rw [if_pos hj, if_pos (List.mem_cons_of_mem _ hj)]
        by_cases hji : j = i
        · subst hji
          rw [h1]
          simp [released_released]
        · rw [h1]
          simp [Function.update_noteq hji]
      · rw [if_neg hj]
        by_cases hji : j = i
        · subst hji
          rw [if_pos (List.mem_cons_self _ _), h1]
          simp
        · have : j ∉ i :: rest := by
            simp [hji, hj]
          rw [if_neg this, h1]
          simp [Function.update_noteq hji]

end SubscriptionIndex

/-! ## Sessions and index together -/

section WorldLemmas

open WebSocketSession MarketDataServer

theorem effect_send_error (self : WebSocketSession) (server : MarketDataServer)
    (error_msg : String) (now : Int) :
    (self.send_error error_msg now).session_id_ = self.session_id_ ∧
    Effect self server (self.send_error error_msg now, server) :=
  ⟨(send_message_fields self _).2.1, Or.inl ⟨(send_message_fields self _).1, rfl⟩⟩

theorem effect_send_response (self : WebSocketSession) (server : MarketDataServer)
    (data : JsonValue) :
    (self.send_response data).session_id_ = self.session_id_ ∧
    Effect self server (self.send_response data, server) :=
  ⟨(send_message_fields self _).2.1, Or.inl ⟨(send_message_fields self _).1, rfl⟩⟩

theorem handle_message_effect (self : WebSocketSession) (server : MarketDataServer)
    (now : Int) (frame : Frame) :
    ∃ r, self.handle_message server now frame.parsed = some r ∧
      r.1.session_id_ = self.session_id_ ∧ Effect self server r := by
  cases frame with
  | malformed => exact ⟨_, rfl, effect_send_error self server _ now⟩
  | object doc =>
    simp only [Frame.parsed, handle_message]
    cases hact : JsonValue.FindMember doc "action" with
    | none => exact ⟨_, rfl, effect_send_error self server _ now⟩
    | some v =>
      cases v with
      | str a =>
        simp only
        by_cases h1 : cstr a = "subscribe"
        · rw [if_pos h1]
          cases hinst : JsonValue.FindMember doc "instruments" with
          | none => exact ⟨_, rfl, effect_send_error self server _ now⟩
          | some v =>
            cases v with
            | arr l =>
              refine ⟨_, rfl, ?_, Or.inr (Or.inl ⟨requested_instruments l, ?_, ?_⟩)⟩
              · simp only [send_response, (send_message_fields _ _).2.1, subscribe_loop_fst]
              · simp only [send_response, (send_message_fields _ _).1, subscribe_loop_fst]
              · exact subscribe_loop_snd l self server
            | _ => exact ⟨_, rfl, effect_send_error self server _ now⟩
        · rw [if_neg h1]
          by_cases h2 : cstr a = "unsubscribe"
          · rw [if_pos h2]
            cases hinst : JsonValue.FindMember doc "instruments" with
            | none => exact ⟨_, rfl, effect_send_error self server _ now⟩
            | some v =>
              cases v with
              | arr l =>
                refine ⟨_, rfl, ?_, Or.inr (Or.inr ⟨requested_instruments l, ?_, ?_⟩)⟩
                · simp only [send_response, (send_message_fields _ _).2.1,
                    unsubscribe_loop_fst]
                · simp only [send_response, (send_message_fields _ _).1,
                    unsubscribe_loop_fst]
                · exact unsubscribe_loop_snd l self server
              | _ => exact ⟨_, rfl, effect_send_error self server _ now⟩
          · rw [if_neg h2]
            by_cases h3 : cstr a = "list_instruments"
            · rw [if_pos h3]
              exact ⟨_, rfl, effect_send_response self server _⟩
            · rw [if_neg h3]
              by_cases h4 : cstr a = "search_instruments"
              · rw [if_pos h4]
                cases hpat : JsonValue.FindMember doc "pattern" with
                | none => exact ⟨_, rfl, effect_send_error self server _ now⟩
                | some v =>
                  cases v with
                  | str p => exact ⟨_, rfl, effect_send_response self server _⟩
                  | _ => exact ⟨_, rfl, effect_send_error self server _ now⟩
              · rw [if_neg h4]
                exact ⟨_, rfl, effect_send_error self server _ now⟩
      | _ => exact ⟨_, rfl, effect_send_error self server _ now⟩

theorem subscribers_subscribe_fold (k : String) (ids : List String) (srv : MarketDataServer)
    (hmode : srv.use_multi_ctp_mode_ = false) (j : String) :
    (ids.foldl (fun srv i => srv.subscribe_instrument k i) srv).subscribers j
      = if j ∈ ids then StrSet.insert k (srv.subscribers j) else srv.subscribers j := by
  have h := (subscribe_fold k ids srv hmode).2.2.2 j
  unfold subscribers at h ⊢
  rw [h]
  split <;> rfl

theorem subscribers_unsubscribe_fold (k : String) (ids : List String)
    (srv : MarketDataServer) (hmode : srv.use_multi_ctp_mode_ = false) (j : String) :
    (ids.foldl (fun srv i => srv.unsubscribe_instrument k i) srv).subscribers j
      = if j ∈ ids then StrSet.erase k (srv.subscribers j) else srv.subscribers j := by
  have h := (unsubscribe_fold k ids srv hmode).2.2.2 j
  unfold subscribers at h ⊢
  rw [h]
  split
  · exact getD_released k _
  · rfl

theorem inv_of_effect (w : World) (k : String) (r : WebSocketSession × MarketDataServer)
    (hinv : w.Inv) (hid : r.1.session_id_ = (w.session k).session_id_)
    (heff : Effect (w.session k) w.server r) :
    World.Inv { server := r.2, session := Function.update w.session k r.1 } := by
  obtain ⟨hmode, hids, hsync⟩ := hinv
  have hk := hids k
  have hsess : ∀ k2, (Function.update w.session k r.1 k2).session_id_ = k2 := by
    intro k2
    by_cases h : k2 = k
    · subst h
      rw [Function.update_same, hid, hk]
    · rw [Function.update_noteq h]
      exact hids k2
  rcases heff with ⟨hsub, hsrv⟩ | ⟨ids, hsub, hsrv⟩ | ⟨ids, hsub, hsrv⟩
  · refine ⟨by rw [hsrv]; exact hmode, hsess, ?_⟩
    intro k2 i
    simp only
    rw [hsrv]
    by_cases h : k2 = k
    · subst h
      rw [Function.update_same, hsub]
      exact hsync k2 i
    · rw [Function.update_noteq h]
      exact hsync k2 i
  · rw [hk] at hsrv
    refine ⟨by rw [hsrv]; exact (subscribe_fold k ids w.server hmode).1, hsess, ?_⟩
    intro k2 i
    simp only
    rw [hsrv, subscribers_subscribe_fold k ids w.server hmode i]
    by_cases h : k2 = k
    · subst h
      rw [Function.update_same, hsub, StrSet.mem_insert_all]
      split
      · rename_i hi
        rw [StrSet.mem_insert]
        simp [hi]
      · rename_i hi
        rw [← hsync k2 i]
        simp [hi]
    · rw [Function.update_noteq h]
      split
      · rw [StrSet.mem_insert, hsync k2 i]
        simp [h]
      · exact hsync k2 i
  · rw [hk] at hsrv
    refine ⟨by rw [hsrv]; exact (unsubscribe_fold k ids w.server hmode).1, hsess, ?_⟩
    intro k2 i
    simp only
    rw [hsrv, subscribers_unsubscribe_fold k ids w.server hmode i]
    by_cases h : k2 = k
    · subst h
      rw [Function.update_same, hsub, StrSet.mem_erase_all]
      split
      · rename_i hi
        rw [StrSet.mem_erase]
        simp [hi]
      · rename_i hi
        rw [← hsync k2 i]
        simp [hi]
    · rw [Function.update_noteq h]
      split
      · rw [StrSet.mem_erase, hsync k2 i]
        simp [h]
      · exact hsync k2 i

theorem inv_handle_message (w : World) (k : String) (now : Int) (frame : Frame)
    (hinv : w.Inv) :
    ∃ w1, w.handle_message k now frame.parsed = some w1 ∧ w1.Inv := by
  obtain ⟨r, hr, hid, heff⟩ := handle_message_effect (w.session k) w.server now frame
  refine ⟨{ server := r.2, session := Function.update w.session k r.1 }, ?_,
    inv_of_effect w k r hinv hid heff⟩
  simp only [World.handle_message, hr]

theorem inv_run (frames : List (String × Int × Frame)) (w : World) (hinv : w.Inv) :
    ∃ w1, w.run frames = some w1 ∧ w1.Inv := by
  induction frames generalizing w with
  | nil => exact ⟨w, rfl, hinv⟩
  | cons f rest ih =>
    obtain ⟨k, now, frame⟩ := f
    obtain ⟨w1, h1, hinv1⟩ := inv_handle_message w k now frame hinv
    obtain ⟨w2, h2, hinv2⟩ := ih w1 hinv1
    exact ⟨w2, by simp only [World.run, h1, h2], hinv2⟩

/-- C1: start from a single-connection server with an empty index and session
objects, each filed under its own id, with empty subscription sets.  After any
sequence of frames handled by `handle_message` (subscribe and unsubscribe
requests among them; any text that is not JSON or is a JSON object), handling
has a result and in it an instrument is in a session's `subscriptions_` exactly
when the session's id is among the instrument's subscribers in
`instrument_subscribers_`. -/
theorem index_mirrors_sessions (w : World) (frames : List (String × Int × Frame))
    (hmode : w.server.use_multi_ctp_mode_ = false)
    (hids : ∀ k, (w.session k).session_id_ = k)
    (hindex : ∀ i, w.server.instrument_subscribers_ i = none)
    (hsets : ∀ k, (w.session k).subscriptions_ = []) :
    ∃ w1, w.run frames = some w1 ∧
      ∀ k i, i ∈ (w1.session k).subscriptions_ ↔
        ∃ subs, w1.server.instrument_subscribers_ i = some subs ∧ k ∈ subs := by
  have hinv : w.Inv := by
    refine ⟨hmode, hids, ?_⟩
    intro k i
    simp [hsets k, subscribers, hindex i]
  obtain ⟨w1, h1, -, -, hsync⟩ := inv_run frames w hinv
  refine ⟨w1, h1, ?_⟩
  intro k i
  rw [hsync k i]
  unfold subscribers
  cases w1.server.instrument_subscribers_ i with
  | none => simp
  | some subs => simp

/-- Witness of `index_mirrors_sessions`: a freshly created world and a short
history of two sessions. -/
theorem index_mirrors_sessions_witness :
    ∃ w1, (World.create "9999").run sample_frames = some w1 ∧
      ∀ k i, i ∈ (w1.session k).subscriptions_ ↔
        ∃ subs, w1.server.instrument_subscribers_ i = some subs ∧ k ∈ subs :=
  index_mirrors_sessions (World.create "9999") sample_frames rfl (fun _ => rfl)
    (fun _ => rfl) (fun _ => rfl)

/-! ### Subscribe followed by unsubscribe -/

theorem handle_message_subscribe_request (self : WebSocketSession)
    (server : MarketDataServer) (now : Int) (ids : List String) :
    self.handle_message server now (subscribe_request ids).parsed =
      some ((subscribe_loop (ids.map JsonValue.str) self server).1.send_response
          (count_frame "subscribe_response" (static_cast_int
            (subscribe_loop (ids.map JsonValue.str) self server).1.subscriptions_.length)),
        (subscribe_loop (ids.map JsonValue.str) self server).2) :=
  rfl

theorem handle_message_unsubscribe_request (self : WebSocketSession)
    (server : MarketDataServer) (now : Int) (ids : List String) :
    self.handle_message server now (unsubscribe_request ids).parsed =
      some ((unsubscribe_loop (ids.map JsonValue.str) self server).1.send_response
          (count_frame "unsubscribe_response" (static_cast_int
            (unsubscribe_loop (ids.map JsonValue.str) self server).1.subscriptions_.length)),
        (unsubscribe_loop (ids.map JsonValue.str) self server).2) :=
  rfl

theorem requested_instruments_map_str (ids : List String) :
    requested_instruments (ids.map JsonValue.str) = ids.map cstr := by
  induction ids with
  | nil => rfl
  | cons i rest ih => simp [requested_instruments, ih]

theorem StrSet.erase_comm (a b : String) (l : List String) :
    StrSet.erase a (StrSet.erase b l) = StrSet.erase b (StrSet.erase a l) := by
  unfold StrSet.erase
  rw [List.filter_filter, List.filter_filter]
  congr 1
  funext y
  exact Bool.and_comm _ _

theorem StrSet.erase_all_erase (ids : List String) (a : String) (l : List String) :
    StrSet.erase_all ids (StrSet.erase a l) = StrSet.erase a (StrSet.erase_all ids l) := by
  induction ids generalizing l with
  | nil => rfl
  | cons i rest ih =>
    have h := ih (StrSet.erase i l)
    simp only [StrSet.erase_all, List.foldl_cons] at h ⊢
    rw [StrSet.erase_comm, h]

theorem StrSet.erase_all_of_not_mem (ids : List String) (l : List String)
    (h : ∀ i ∈ ids, i ∉ l) : StrSet.erase_all ids l = l := by
  induction ids generalizing l with
  | nil => rfl
  | cons i rest ih =>
    have hi := StrSet.erase_of_not_mem i l (h i (List.mem_cons_self _ _))
    have := ih l (fun j hj => h j (List.mem_cons_of_mem _ hj))
    simp only [StrSet.erase_all, List.foldl_cons] at this ⊢
    rw [hi, this]

theorem StrSet.erase_place_eq (a : String) (l : List String) :
    StrSet.erase a (StrSet.place a l) = StrSet.erase a l := by
  induction l with
  | nil => simp [StrSet.place, StrSet.erase]
  | cons y ys ih =>
    unfold StrSet.place
    split
    · simp [StrSet.erase]
    · unfold StrSet.erase at ih ⊢
      rw [List.filter_cons, List.filter_cons, ih]

theorem StrSet.erase_insert_eq (a : String) (l : List String) :
    StrSet.erase a (StrSet.insert a l) = StrSet.erase a l := by
  unfold StrSet.insert
  split
  · rfl
  · exact StrSet.erase_place_eq a l

theorem StrSet.erase_all_insert_all_eq (ids : List String) (l : List String) :
    StrSet.erase_all ids (StrSet.insert_all ids l) = StrSet.erase_all ids l := by
  induction ids generalizing l with
  | nil => rfl
  | cons i rest ih =>
    have h := ih (StrSet.insert i l)
    have e1 : StrSet.erase_all (i :: rest) (StrSet.insert_all (i :: rest) l)
        = StrSet.erase_all rest (StrSet.erase i (StrSet.insert_all rest (StrSet.insert i l))) :=
      rfl
    have e2 : StrSet.erase_all (i :: rest) l = StrSet.erase_all rest (StrSet.erase i l) := rfl
    rw [e1, e2, StrSet.erase_all_erase, h, ← StrSet.erase_all_erase, StrSet.erase_insert_eq]

/-- Inserting ids into a set that holds none of them and erasing them again
gives the set back. -/
theorem StrSet.erase_all_insert_all (ids : List String) (l : List String)
    (h : ∀ i ∈ ids, i ∉ l) : StrSet.erase_all ids (StrSet.insert_all ids l) = l := by
  rw [StrSet.erase_all_insert_all_eq, StrSet.erase_all_of_not_mem ids l h]

/-- In multi-connection mode the subscribe and unsubscribe members leave
`instrument_subscribers_` alone. -/
theorem multi_mode_fold (f : MarketDataServer → String → MarketDataServer)
    (hf : ∀ srv i, srv.use_multi_ctp_mode_ = true →
      (f srv i).use_multi_ctp_mode_ = true ∧
      (f srv i).instrument_subscribers_ = srv.instrument_subscribers_)
    (ids : List String) (srv : MarketDataServer) (hmode : srv.use_multi_ctp_mode_ = true) :
    (ids.foldl f srv).use_multi_ctp_mode_ = true ∧
    (ids.foldl f srv).instrument_subscribers_ = srv.instrument_subscribers_ := by
  induction ids generalizing srv with
  | nil => exact ⟨hmode, rfl⟩
  | cons i rest ih =>
    obtain ⟨h1, h2⟩ := hf srv i hmode
    obtain ⟨h3, h4⟩ := ih (f srv i) h1
    exact ⟨h3, h4.trans h2⟩

theorem subscribe_instrument_multi (k : String) (srv : MarketDataServer) (i : String)
    (hmode : srv.use_multi_ctp_mode_ = true) :
    (srv.subscribe_instrument k i).use_multi_ctp_mode_ = true ∧
    (srv.subscribe_instrument k i).instrument_subscribers_ = srv.instrument_subscribers_ := by
  unfold subscribe_instrument
  rw [if_pos hmode]
  split
  · exact ⟨hmode, rfl⟩
  · exact ⟨hmode, rfl⟩

theorem unsubscribe_instrument_multi (k : String) (srv : MarketDataServer) (i : String)
    (hmode : srv.use_multi_ctp_mode_ = true) :
    (srv.unsubscribe_instrument k i).use_multi_ctp_mode_ = true ∧
    (srv.unsubscribe_instrument k i).instrument_subscribers_ = srv.instrument_subscribers_ := by
  unfold unsubscribe_instrument
  rw [if_pos hmode]
  split
  · exact ⟨hmode, rfl⟩
  · exact ⟨hmode, rfl⟩

/-- A run of subscribes by one session followed by the same run of
unsubscribes restores the index, provided the session was not among the
subscribers of those instruments and none of them had an empty entry. -/
theorem index_round_trip (k : String) (ids : List String) (srv : MarketDataServer)
    (h : srv.use_multi_ctp_mode_ = false →
      ∀ i ∈ ids, k ∉ srv.subscribers i ∧ srv.instrument_subscribers_ i ≠ some []) :
    (ids.foldl (fun srv i => srv.unsubscribe_instrument k i)
      (ids.foldl (fun srv i => srv.subscribe_instrument k i) srv)).instrument_subscribers_
      = srv.instrument_subscribers_ := by
  cases hmode : srv.use_multi_ctp_mode_ with
  | true =>
    obtain ⟨h1, h2⟩ := multi_mode_fold (fun srv i => srv.subscribe_instrument k i)
      (subscribe_instrument_multi k) ids srv hmode
    obtain ⟨-, h4⟩ := multi_mode_fold (fun srv i => srv.unsubscribe_instrument k i)
      (unsubscribe_instrument_multi k) ids _ h1
    exact h4.trans h2
  | false =>
    obtain ⟨h1, -, -, hsub⟩ := subscribe_fold k ids srv hmode
    obtain ⟨-, -, -, hunsub⟩ := unsubscribe_fold k ids _ h1
    funext j
    rw [hunsub j, hsub j]
    by_cases hj : j ∈ ids
    · obtain ⟨hk, hne⟩ := h hmode j hj
      simp only [if_pos hj, released, StrSet.erase_insert k _ hk]
      unfold subscribers at hk ⊢
      cases he : srv.instrument_subscribers_ j with
      | none => simp
      | some subs =>
        rw [he] at hne
        have : subs ≠ [] := fun h0 => hne (by rw [h0])
        simp [this]
    · simp only [if_neg hj]

/-- C6 (as amended): whatever the mode, when the session holds neither `X` nor
`Y` before (and, in single-connection mode, its id is not among their
subscribers and neither has an empty entry), a subscribe request for `[X, Y]`
followed by an unsubscribe request for `[X, Y]` is handled with a result and
leaves the session's `subscriptions_` and the server's
`instrument_subscribers_` exactly as they were.  Names are read as C
strings. -/
theorem subscribe_unsubscribe_round_trip (self : WebSocketSession)
    (server : MarketDataServer) (now1 now2 : Int) (X Y : String)
    (hX : cstr X ∉ self.subscriptions_) (hY : cstr Y ∉ self.subscriptions_)
    (hindex : server.use_multi_ctp_mode_ = false →
      ∀ i ∈ [cstr X, cstr Y],
        self.session_id_ ∉ server.subscribers i ∧
        server.instrument_subscribers_ i ≠ some []) :
    ∃ r1 r2,
      self.handle_message server now1 (subscribe_request [X, Y]).parsed = some r1 ∧
      r1.1.handle_message r1.2 now2 (unsubscribe_request [X, Y]).parsed = some r2 ∧
      r2.1.subscriptions_ = self.subscriptions_ ∧
      r2.2.instrument_subscribers_ = server.instrument_subscribers_ := by
  refine ⟨_, _, handle_message_subscribe_request self server now1 [X, Y],
    handle_message_unsubscribe_request _ _ now2 [X, Y], ?_, ?_⟩
  · simp only [send_response, (send_message_fields _ _).1, unsubscribe_loop_fst,
      subscribe_loop_fst, requested_instruments_map_str]
    apply StrSet.erase_all_insert_all
    intro i hi
    simp only [List.map_cons, List.map_nil, List.mem_cons, List.mem_singleton,
      List.not_mem_nil, or_false] at hi
    rcases hi with rfl | rfl
    · exact hX
    · exact hY
  · simp only [send_response, (send_message_fields _ _).2.1, unsubscribe_loop_snd,
      subscribe_loop_snd, subscribe_loop_fst, requested_instruments_map_str]
    exact index_round_trip self.session_id_ [cstr X, cstr Y] server hindex

/-- Witness of `subscribe_unsubscribe_round_trip`: a fresh session and a fresh
server. -/
theorem subscribe_unsubscribe_round_trip_witness :
    ∃ r1 r2,
      (WebSocketSession.create "session_1").handle_message (MarketDataServer.create "9999") 0
        (subscribe_request ["rb2410", "cu2412"]).parsed = some r1 ∧
      r1.1.handle_message r1.2 1 (unsubscribe_request ["rb2410", "cu2412"]).parsed
        = some r2 ∧
      r2.1.subscriptions_ = (WebSocketSession.create "session_1").subscriptions_ ∧
      r2.2.instrument_subscribers_ = (MarketDataServer.create "9999").instrument_subscribers_ :=
  subscribe_unsubscribe_round_trip (WebSocketSession.create "session_1") (MarketDataServer.create "9999") 0 1
    "rb2410" "cu2412" (by decide) (by decide) (by decide)

/-- C6 (counterexample): a session that already holds `rb2410` sends a
subscribe request and then an unsubscribe request for `["rb2410", "cu2412"]`.
Before the two requests its set is `["rb2410"]` and `rb2410` has the subscriber
`session_1`; afterwards the set is empty and `rb2410` has no entry. -/
theorem round_trip_drops_earlier_subscription :
    ∃ r0 r1 r2,
      (WebSocketSession.create "session_1").handle_message (MarketDataServer.create "9999") 0
        (subscribe_request ["rb2410"]).parsed = some r0 ∧
      r0.1.handle_message r0.2 1 (subscribe_request ["rb2410", "cu2412"]).parsed = some r1 ∧
      r1.1.handle_message r1.2 2 (unsubscribe_request ["rb2410", "cu2412"]).parsed
        = some r2 ∧
      r0.1.subscriptions_ = ["rb2410"] ∧
      r0.2.instrument_subscribers_ "rb2410" = some ["session_1"] ∧
      r2.1.subscriptions_ = [] ∧
      r2.2.instrument_subscribers_ "rb2410" = none :=
  ⟨_, _, _, rfl, rfl, rfl, by decide, by decide, by decide, by decide⟩

end WorldLemmas

/-! ## Removing a session -/

section RemoveSession

open MarketDataServer

theorem remove_session_fold_eq (s : String) (l : List String) (srv : MarketDataServer)
    (hmode : srv.use_multi_ctp_mode_ = false) :
    l.foldl (remove_session_loop s) srv
      = l.foldl (fun srv i => srv.unsubscribe_instrument s i) srv := by
  induction l generalizing srv with
  | nil => rfl
  | cons i rest ih =>
    simp only [List.foldl_cons]
    rw [remove_session_loop_eq srv s i hmode]
    apply ih
    rw [unsubscribe_instrument_single srv s i hmode]
    exact hmode

theorem remove_session_loop_sessions (s : String) (srv : MarketDataServer) (i : String) :
    (remove_session_loop s srv i).sessions_ = srv.sessions_ := by
  unfold remove_session_loop
  cases srv.instrument_subscribers_ i with
  | none => rfl
  | some subs =>
    simp only
    split
    · split <;> rfl
    · rfl

theorem remove_session_fold_sessions (s : String) (l : List String)
    (srv : MarketDataServer) :
    (l.foldl (remove_session_loop s) srv).sessions_ = srv.sessions_ := by
  induction l generalizing srv with
  | nil => rfl
  | cons i rest ih =>
    simp only [List.foldl_cons]
    rw [ih, remove_session_loop_sessions]

/-- When `remove_session` returns, it returns `remove_session_result`; it
returns unless the id is registered and the table holds the last owner. -/
theorem remove_session_eq (srv : MarketDataServer) (deref : String → WebSocketSession)
    (s : String) (shared : Bool) :
    srv.remove_session deref s shared =
      if srv.sessions_ s = true ∧ shared = false then none
      else some (srv.remove_session_result deref s) := by
  have hupd : ∀ body : MarketDataServer, body.sessions_ s = false →
      ({ body with sessions_ := Function.update body.sessions_ s false } : MarketDataServer)
        = body := by
    intro body hb
    rw [← hb, Function.update_eq_self]
  unfold remove_session remove_session_result
  cases hreg : srv.sessions_ s <;> cases hm : srv.use_multi_ctp_mode_ <;>
    cases hd : srv.subscription_dispatcher_ <;> cases shared <;>
    simp [hreg, remove_session_fold_sessions, hupd]

theorem remove_session_shared (srv : MarketDataServer) (deref : String → WebSocketSession)
    (s : String) :
    srv.remove_session deref s true = some (srv.remove_session_result deref s) := by
  rw [remove_session_eq]
  simp

theorem remove_session_some (srv : MarketDataServer) (deref : String → WebSocketSession)
    (s : String) (shared : Bool) (srv1 : MarketDataServer)
    (h : srv.remove_session deref s shared = some srv1) :
    srv1 = srv.remove_session_result deref s := by
  rw [remove_session_eq] at h
  split at h
  · exact absurd h (by simp)
  · exact (Option.some.inj h).symm

theorem unsubscribe_fold_calls (s : String) (l : List String) (srv : MarketDataServer)
    (hmode : srv.use_multi_ctp_mode_ = false) (hready : srv.upstream_ready = true)
    (hnodup : l.Nodup) :
    (l.foldl (fun srv i => srv.unsubscribe_instrument s i) srv).ctp_calls
      = srv.ctp_calls ++
        (l.filter (fun i => is_last_subscriber s (srv.instrument_subscribers_ i))).map
          CtpCall.UnSubscribeMarketData := by
  induction l generalizing srv with
  | nil => simp
  | cons i rest ih =>
    have h1 := unsubscribe_instrument_single srv s i hmode
    have hmode1 : (srv.unsubscribe_instrument s i).use_multi_ctp_mode_ = false := by
      rw [h1]; exact hmode
    have hready1 : (srv.unsubscribe_instrument s i).upstream_ready = true := by
      rw [h1]; exact hready
    obtain ⟨hi, hrest⟩ := List.nodup_cons.1 hnodup
    have hcongr : rest.filter (fun j => is_last_subscriber s
          ((srv.unsubscribe_instrument s i).instrument_subscribers_ j))
        = rest.filter (fun j => is_last_subscriber s (srv.instrument_subscribers_ j)) := by
      apply List.filter_congr
      intro j hj
      have hji : j ≠ i := fun h => hi (h ▸ hj)
      rw [h1]
      simp [Function.update_noteq hji]
    simp only [List.foldl_cons]
    rw [ih _ hmode1 hready1 hrest, hcongr, h1]
    by_cases hl : is_last_subscriber s (srv.instrument_subscribers_ i) = true
    · simp [hl, hready, List.filter_cons]
    · simp [hl, List.filter_cons]

theorem is_last_subscriber_iff (s : String) (srv : MarketDataServer) (i : String)
    (hs : s ∈ srv.subscribers i) :
    is_last_subscriber s (srv.instrument_subscribers_ i) = true ↔
      ∀ t ∈ srv.subscribers i, t = s := by
  unfold subscribers at hs ⊢
  cases he : srv.instrument_subscribers_ i with
  | none => rw [he] at hs; simp at hs
  | some subs =>
    simp only [is_last_subscriber, Option.getD_some, List.isEmpty_iff, StrSet.erase,
      List.filter_eq_nil_iff]
    constructor
    · intro h t ht
      have := h t ht
      simpa using this
    · intro h t ht
      simp [h t ht]

/-- The release logic of `remove_session` as such: in single-connection mode
with the upstream link logged in, for a session `S` that is in the sessions
table and whose `subscriptions_` set mirrors the index, the state the call
returns (when it returns) has `S` in no subscriber set, the other subscribers
as before, `S` out of the sessions table, and the upstream requests added are
`UnSubscribeMarketData`, once each, for exactly the instruments whose only
subscriber was `S`. -/
theorem remove_session_result_releases (srv : MarketDataServer)
    (deref : String → WebSocketSession) (S : String)
    (hmode : srv.use_multi_ctp_mode_ = false) (hready : srv.upstream_ready = true)
    (hreg : srv.sessions_ S = true)
    (hnodup : (deref S).subscriptions_.Nodup)
    (hsync : ∀ i, i ∈ (deref S).subscriptions_ ↔ S ∈ srv.subscribers i) :
    (∀ i, S ∉ (srv.remove_session_result deref S).subscribers i) ∧
    (∀ i t, t ≠ S →
      (t ∈ (srv.remove_session_result deref S).subscribers i ↔ t ∈ srv.subscribers i)) ∧
    (srv.remove_session_result deref S).sessions_ S = false ∧
    ∃ issued : List String,
      (srv.remove_session_result deref S).ctp_calls
        = srv.ctp_calls ++ issued.map CtpCall.UnSubscribeMarketData ∧
      issued.Nodup ∧
      ∀ i, i ∈ issued ↔ (S ∈ srv.subscribers i ∧ ∀ t ∈ srv.subscribers i, t = S) := by
  have hsubs : ∀ i, (srv.remove_session_result deref S).subscribers i
      = if i ∈ (deref S).subscriptions_ then StrSet.erase S (srv.subscribers i)
        else srv.subscribers i := by
    intro i
    unfold remove_session_result
    simp only [hmode, hreg, Bool.false_eq_true, if_false, if_true]
    rw [remove_session_fold_eq S _ srv hmode]
    exact subscribers_unsubscribe_fold S _ srv hmode i
  have hcalls : (srv.remove_session_result deref S).ctp_calls
      = srv.ctp_calls ++ ((deref S).subscriptions_.filter
          (fun i => is_last_subscriber S (srv.instrument_subscribers_ i))).map
            CtpCall.UnSubscribeMarketData := by
    unfold remove_session_result
    simp only [hmode, hreg, Bool.false_eq_true, if_false, if_true]
    rw [remove_session_fold_eq S _ srv hmode]
    exact unsubscribe_fold_calls S _ srv hmode hready hnodup
  refine ⟨?_, ?_, ?_, _, hcalls, hnodup.filter _, ?_⟩
  · intro i
    rw [hsubs i]
    split
    · rw [StrSet.mem_erase]
      exact fun h => h.2 rfl
    · rename_i hi
      rw [← hsync i]
      exact hi
  · intro i t hne
    rw [hsubs i]
    split
    · rw [StrSet.mem_erase]
      simp [hne]
    · rfl
  · unfold remove_session_result
    simp
  · intro i
    rw [List.mem_filter, hsync i]
    constructor
    · rintro ⟨hs, hl⟩
      exact ⟨hs, (is_last_subscriber_iff S srv i hs).1 hl⟩
    · rintro ⟨hs, hall⟩
      exact ⟨hs, (is_last_subscriber_iff S srv i hs).2 hall⟩

/-- The same for the call itself, which returns when another owner keeps the
session alive. -/
theorem remove_session_releases (srv : MarketDataServer)
    (deref : String → WebSocketSession) (S : String)
    (hmode : srv.use_multi_ctp_mode_ = false) (hready : srv.upstream_ready = true)
    (hreg : srv.sessions_ S = true)
    (hnodup : (deref S).subscriptions_.Nodup)
    (hsync : ∀ i, i ∈ (deref S).subscriptions_ ↔ S ∈ srv.subscribers i) :
    ∃ srv1, srv.remove_session deref S true = some srv1 ∧
      (∀ i, S ∉ srv1.subscribers i) ∧
      (∀ i t, t ≠ S → (t ∈ srv1.subscribers i ↔ t ∈ srv.subscribers i)) ∧
      srv1.sessions_ S = false ∧
      ∃ issued : List String,
        srv1.ctp_calls = srv.ctp_calls ++ issued.map CtpCall.UnSubscribeMarketData ∧
        issued.Nodup ∧
        ∀ i, i ∈ issued ↔ (S ∈ srv.subscribers i ∧ ∀ t ∈ srv.subscribers i, t = S) :=
  ⟨_, remove_session_shared srv deref S,
    remove_session_result_releases srv deref S hmode hready hreg hnodup hsync⟩

/-- C5 (failing input): `session_1` is the only subscriber of `rb2410` on a
logged-in single-connection server.  When `remove_session("session_1")` is
called as the destructor calls it, the session being out of the sessions table
and no `shared_ptr` left, the call returns with `session_1` still among the
subscribers of `rb2410` and no `UnSubscribeMarketData` issued.  When it is
called while the table holds the last `shared_ptr`, it has no result. -/
theorem remove_session_leaves_subscriptions_or_never_returns :
    (((logged_in "9999").subscribe_instrument "session_1" "rb2410").remove_session
        rb2410_holder "session_1" false).map
      (fun srv => (srv.sessions_ "session_1", srv.subscribers "rb2410", srv.ctp_calls))
      = some (false, ["session_1"], [CtpCall.SubscribeMarketData "rb2410"]) ∧
    ((((logged_in "9999").add_session "session_1").subscribe_instrument "session_1"
        "rb2410").remove_session rb2410_holder "session_1" false).isNone = true :=
  ⟨by decide, by decide⟩

end RemoveSession

/-! ## Upstream subscriptions -/

section Upstream

open MarketDataServer

theorem upstream_subscribed_append (calls extra : List CtpCall) (i : String) :
    upstream_subscribed (calls ++ extra) i =
      extra.foldl (fun subscribed call =>
        match call with
        | CtpCall.SubscribeMarketData j => if j = i then true else subscribed
        | CtpCall.UnSubscribeMarketData j => if j = i then false else subscribed
        | CtpCall.ReqUserLogin _ _ => subscribed) (upstream_subscribed calls i) := by
  unfold upstream_subscribed
  rw [List.foldl_append]

theorem upstreamInv_subscribe (srv : MarketDataServer) (s i : String)
    (h : srv.UpstreamInv) : (srv.subscribe_instrument s i).UpstreamInv := by
  obtain ⟨hmode, hready, hinv⟩ := h
  rw [subscribe_instrument_single srv s i hmode]
  refine ⟨hmode, hready, ?_⟩
  intro j
  simp only
  rw [upstream_subscribed_append]
  by_cases hj : j = i
  · subst hj
    rw [Function.update_same]
    refine ⟨?_, ?_⟩
    · simp only [Option.isSome_some, iff_true]
      by_cases hlen : (StrSet.insert s (srv.subscribers j)).length = 1
      · simp [hlen, hready]
      · simp only [hlen, false_and, if_false, List.foldl_nil]
        rw [(hinv j).1]
        unfold subscribers at hlen
        cases he : srv.instrument_subscribers_ j with
        | none =>
          rw [he] at hlen
          exact absurd (by simp [StrSet.insert, StrSet.place]) hlen
        | some subs => rfl
    · intro he
      rw [Option.some.injEq] at he
      exact StrSet.insert_ne_nil _ _ he
  · rw [Function.update_noteq hj]
    refine ⟨?_, (hinv j).2⟩
    rw [← (hinv j).1]
    have hij : ¬ i = j := fun h => hj h.symm
    split <;> simp [hij]

theorem upstreamInv_unsubscribe (srv : MarketDataServer) (s i : String)
    (h : srv.UpstreamInv) : (srv.unsubscribe_instrument s i).UpstreamInv := by
  obtain ⟨hmode, hready, hinv⟩ := h
  rw [unsubscribe_instrument_single srv s i hmode]
  refine ⟨hmode, hready, ?_⟩
  intro j
  simp only
  rw [upstream_subscribed_append]
  by_cases hj : j = i
  · subst hj
    rw [Function.update_same]
    refine ⟨?_, released_ne_some_nil s _⟩
    cases he : srv.instrument_subscribers_ j with
    | none =>
      have := (hinv j).1
      rw [he] at this
      simpa [released, is_last_subscriber] using this
    | some subs =>
      by_cases hl : (StrSet.erase s subs).isEmpty = true
      · simp [released, is_last_subscriber, hl, hready]
      · have := (hinv j).1
        rw [he] at this
        simpa [released, is_last_subscriber, hl] using this
  · rw [Function.update_noteq hj]
    refine ⟨?_, (hinv j).2⟩
    rw [← (hinv j).1]
    have hij : ¬ i = j := fun h => hj h.symm
    split <;> simp [hij]

theorem upstreamInv_remove_session (srv : MarketDataServer)
    (deref : String → WebSocketSession) (s : String) (h : srv.UpstreamInv) :
    (srv.remove_session_result deref s).UpstreamInv := by
  have hfold : ∀ (l : List String) (srv : MarketDataServer), srv.UpstreamInv →
      (l.foldl (remove_session_loop s) srv).UpstreamInv := by
    intro l
    induction l with
    | nil => exact fun srv h => h
    | cons i rest ih =>
      intro srv h
      simp only [List.foldl_cons]
      apply ih
      rw [remove_session_loop_eq srv s i h.1]
      exact upstreamInv_unsubscribe srv s i h
  have hmode := h.1
  unfold remove_session_result
  simp only [hmode, Bool.false_eq_true, if_false]
  split
  · exact hfold _ srv h
  · exact h

theorem upstreamInv_ctp_login (srv : MarketDataServer) (ret : Int) (h : srv.UpstreamInv) :
    ∃ srv1, srv.ctp_login ret = some srv1 ∧ srv1.UpstreamInv := by
  obtain ⟨hmode, hready, hinv⟩ := h
  have hr := hready
  unfold upstream_ready at hr
  rw [Bool.and_eq_true] at hr
  obtain ⟨hapi, hlog⟩ := hr
  unfold ctp_login
  rw [if_pos hapi]
  have hcalls : ∀ i, upstream_subscribed
      (srv.ctp_calls ++ [CtpCall.ReqUserLogin (cstr srv.broker_id_)
        (pre_increment srv.request_id_)]) i = upstream_subscribed srv.ctp_calls i := by
    intro i
    rw [upstream_subscribed_append]
    rfl
  split
  · refine ⟨_, rfl, hmode, hready, ?_⟩
    intro i
    simp only
    rw [hcalls i]
    exact hinv i
  · refine ⟨_, rfl, hmode, ?_, ?_⟩
    · simp [upstream_ready, hapi]
    · intro i
      simp only
      rw [hcalls i]
      exact hinv i

theorem upstreamInv_apply (op : ServerOp) (srv srv1 : MarketDataServer)
    (h : srv.UpstreamInv) (h1 : op.apply srv = some srv1) : srv1.UpstreamInv := by
  cases op with
  | ctp_login ret =>
    obtain ⟨srv2, h2, hinv2⟩ := upstreamInv_ctp_login srv ret h
    simp only [ServerOp.apply] at h1
    rw [h2, Option.some.injEq] at h1
    exact h1 ▸ hinv2
  | subscribe_instrument s i =>
    simp only [ServerOp.apply, Option.some.injEq] at h1
    exact h1 ▸ upstreamInv_subscribe srv s i h
  | unsubscribe_instrument s i =>
    simp only [ServerOp.apply, Option.some.injEq] at h1
    exact h1 ▸ upstreamInv_unsubscribe srv s i h
  | remove_session deref s shared =>
    simp only [ServerOp.apply] at h1
    rw [remove_session_some srv deref s shared srv1 h1]
    exact upstreamInv_remove_session srv deref s h

theorem apply_of_shared (op : ServerOp) (srv : MarketDataServer) (h : srv.UpstreamInv)
    (hs : op.shared = true) : ∃ srv1, op.apply srv = some srv1 := by
  cases op with
  | ctp_login ret =>
    obtain ⟨srv2, h2, -⟩ := upstreamInv_ctp_login srv ret h
    exact ⟨srv2, h2⟩
  | subscribe_instrument s i => exact ⟨_, rfl⟩
  | unsubscribe_instrument s i => exact ⟨_, rfl⟩
  | remove_session deref s shared =>
    simp only [ServerOp.shared] at hs
    subst hs
    exact ⟨_, remove_session_shared srv deref s⟩

theorem upstreamInv_run (ops : List ServerOp) (srv srv1 : MarketDataServer)
    (h : srv.UpstreamInv) (h1 : ServerOp.run srv ops = some srv1) : srv1.UpstreamInv := by
  induction ops generalizing srv with
  | nil =>
    simp only [ServerOp.run, Option.some.injEq] at h1
    exact h1 ▸ h
  | cons op rest ih =>
    simp only [ServerOp.run] at h1
    cases hop : op.apply srv with
    | none => rw [hop] at h1; exact absurd h1 (by simp)
    | some srv2 =>
      rw [hop] at h1
      exact ih srv2 (upstreamInv_apply op srv srv2 h hop) h1

theorem run_of_shared (ops : List ServerOp) (srv : MarketDataServer) (h : srv.UpstreamInv)
    (hs : ∀ op ∈ ops, op.shared = true) : ∃ srv1, ServerOp.run srv ops = some srv1 := by
  induction ops generalizing srv with
  | nil => exact ⟨srv, rfl⟩
  | cons op rest ih =>
    obtain ⟨srv2, hop⟩ := apply_of_shared op srv h (hs op (List.mem_cons_self _ _))
    obtain ⟨srv3, h3⟩ := ih srv2 (upstreamInv_apply op srv srv2 h hop)
      (fun o ho => hs o (List.mem_cons_of_mem _ ho))
    exact ⟨srv3, by simp only [ServerOp.run, hop, h3]⟩

/-- C2 (as amended): on a single-connection server whose upstream link is
logged in (`ctp_api_` set and `ctp_logged_in_` true, as after a successful
`ctp_login`), starting from an empty index with nothing subscribed upstream,
after any sequence of `ctp_login`, `subscribe_instrument`,
`unsubscribe_instrument` and `remove_session` calls an instrument is subscribed
upstream exactly when it has at least one subscriber in
`instrument_subscribers_`.  The calls have a result whenever no
`remove_session` among them drops the last owner of its session (that call
never returns); and whenever they have a result, it is as said. -/
theorem upstream_matches_index (srv : MarketDataServer) (ops : List ServerOp)
    (hmode : srv.use_multi_ctp_mode_ = false) (hready : srv.upstream_ready = true)
    (hindex : ∀ i, srv.instrument_subscribers_ i = none)
    (hcalls : ∀ i, upstream_subscribed srv.ctp_calls i = false) :
    ((∀ op ∈ ops, op.shared = true) →
      ∃ srv1, ServerOp.run srv ops = some srv1 ∧
        ∀ i, upstream_subscribed srv1.ctp_calls i = true ↔ srv1.subscribers i ≠ []) ∧
    (∀ srv1, ServerOp.run srv ops = some srv1 →
      ∀ i, upstream_subscribed srv1.ctp_calls i = true ↔ srv1.subscribers i ≠ []) := by
  have hinv : srv.UpstreamInv := by
    refine ⟨hmode, hready, fun i => ⟨?_, ?_⟩⟩
    · simp [hindex i, hcalls i]
    · simp [hindex i]
  have hresult : ∀ srv1, ServerOp.run srv ops = some srv1 →
      ∀ i, upstream_subscribed srv1.ctp_calls i = true ↔ srv1.subscribers i ≠ [] := by
    intro srv1 h1 i
    obtain ⟨-, -, hinv1⟩ := upstreamInv_run ops srv srv1 hinv h1
    rw [(hinv1 i).1]
    unfold subscribers
    cases he : srv1.instrument_subscribers_ i with
    | none => simp
    | some subs =>
      have := (hinv1 i).2
      rw [he] at this
      have hne : subs ≠ [] := fun h0 => this (by rw [h0])
      simp [hne]
  refine ⟨fun hs => ?_, hresult⟩
  obtain ⟨srv1, h1⟩ := run_of_shared ops srv hinv hs
  exact ⟨srv1, h1, hresult srv1 h1⟩

/-- Witness of `upstream_matches_index`: a logged-in server with `session_2`
registered; two sessions subscribe, one unsubscribes, and `session_2` is
removed while a handler still holds it. -/
theorem upstream_matches_index_witness :
    ∃ srv1, ServerOp.run ((logged_in "9999").add_session "session_2")
        [ServerOp.subscribe_instrument "session_1" "rb2410",
         ServerOp.subscribe_instrument "session_2" "rb2410",
         ServerOp.unsubscribe_instrument "session_1" "rb2410",
         ServerOp.remove_session rb2410_holder "session_2" true] = some srv1 ∧
      ∀ i, upstream_subscribed srv1.ctp_calls i = true ↔ srv1.subscribers i ≠ [] :=
  (upstream_matches_index ((logged_in "9999").add_session "session_2")
    [ServerOp.subscribe_instrument "session_1" "rb2410",
     ServerOp.subscribe_instrument "session_2" "rb2410",
     ServerOp.unsubscribe_instrument "session_1" "rb2410",
     ServerOp.remove_session rb2410_holder "session_2" true]
    rfl rfl (fun _ => rfl) (fun _ => rfl)).1
    (by
      intro op hop
      simp only [List.mem_cons, List.mem_singleton, List.not_mem_nil, or_false] at hop
      rcases hop with rfl | rfl | rfl | rfl <;> rfl)

/-- C2 (counterexample): on a server that has its SDK handle but is not logged
in yet, `session_1` subscribes `rb2410` and then the login request is sent
successfully.  The calls have a result in which `rb2410` has the subscriber
`session_1` and is not subscribed upstream. -/
theorem subscribe_before_login_never_reaches_upstream :
    (ServerOp.run (started "9999")
        [ServerOp.subscribe_instrument "session_1" "rb2410", ServerOp.ctp_login 0]).map
      (fun srv => (srv.subscribers "rb2410", upstream_subscribed srv.ctp_calls "rb2410"))
      = some (["session_1"], false) := by
  decide

end Upstream

/-! ## Instrument catalog -/

section Catalog

open MarketDataServer WebSocketSession

theorem cstr_cstr (s : String) : cstr (cstr s) = cstr s := by
  unfold cstr
  simp only [List.takeWhile_idem]

theorem catalog_key_eq (raw : String) : catalog_key raw = cstr raw := by
  unfold catalog_key
  exact cstr_cstr raw

theorem isEmpty_eq_false_iff (key : String) : (!key.isEmpty) = true ↔ (key != "") = true := by
  have h := String.isEmpty_iff key
  by_cases he : key = ""
  · subst he
    decide
  · have h1 : key.isEmpty = false := by
      cases hb : key.isEmpty with
      | false => rfl
      | true => exact absurd (h.1 hb) he
    simp [h1, he]

theorem contains_substring_iff (haystack needle : List Char) :
    contains_substring haystack needle = true ↔ needle <:+: haystack := by
  unfold contains_substring
  rw [List.any_eq_true, List.infix_iff_prefix_suffix]
  constructor
  · rintro ⟨t, ht, hp⟩
    exact ⟨t, List.isPrefixOf_iff_prefix.1 hp, (List.mem_tails t haystack).1 ht⟩
  · rintro ⟨t, hp, hs⟩
    exact ⟨t, (List.mem_tails t haystack).2 hs, List.isPrefixOf_iff_prefix.2 hp⟩

theorem foldl_collect {α β : Type} (c : α → Bool) (f : α → β) (l : List α) (init : List β) :
    l.foldl (fun acc x => if c x = true then acc ++ [f x] else acc) init
      = init ++ (l.filter c).map f := by
  induction l generalizing init with
  | nil => simp
  | cons x rest ih =>
    simp only [List.foldl_cons]
    by_cases hx : c x = true
    · rw [if_pos hx, ih, List.filter_cons_of_pos hx]
      simp
    · rw [if_neg hx, ih, List.filter_cons_of_neg hx]

theorem get_all_instruments_eq (srv : MarketDataServer) :
    srv.get_all_instruments = get_all_instruments_spec srv.catalog := by
  unfold get_all_instruments get_all_instruments_spec catalog
  cases srv.ins_map_ with
  | none => rfl
  | some entries =>
    simp only [Option.getD_some]
    have h := foldl_collect (fun raw => !(catalog_key raw).isEmpty) catalog_key entries []
    simp only [List.nil_append] at h
    rw [h, List.filter_map]
    congr 1
    · funext raw
      exact catalog_key_eq raw
    · apply List.filter_congr
      intro raw _
      simp only [Function.comp]
      rw [← catalog_key_eq raw]
      rw [Bool.eq_iff_iff]
      exact isEmpty_eq_false_iff _

theorem search_instruments_eq (srv : MarketDataServer) (pattern : String) :
    srv.search_instruments pattern
      = (get_all_instruments_spec srv.catalog).filter (fun key =>
          contains_substring (to_lower key).data (to_lower pattern).data) := by
  unfold search_instruments get_all_instruments_spec catalog
  cases srv.ins_map_ with
  | none => rfl
  | some entries =>
    simp only [Option.getD_some]
    have h := foldl_collect
      (fun raw => !(catalog_key raw).isEmpty &&
        contains_substring (to_lower (catalog_key raw)).data (to_lower pattern).data)
      catalog_key entries []
    simp only [List.nil_append] at h
    have hfold : (entries.foldl (fun matching_instruments raw =>
        if (!(catalog_key raw).isEmpty) = true then
          if contains_substring (to_lower (catalog_key raw)).data (to_lower pattern).data = true
          then matching_instruments ++ [catalog_key raw]
          else matching_instruments
        else matching_instruments) [])
        = entries.foldl (fun acc raw =>
            if (!(catalog_key raw).isEmpty &&
              contains_substring (to_lower (catalog_key raw)).data (to_lower pattern).data) = true
            then acc ++ [catalog_key raw] else acc) [] := by
      congr 1
      funext acc raw
      by_cases h1 : (!(catalog_key raw).isEmpty) = true <;>
        by_cases h2 : contains_substring (to_lower (catalog_key raw)).data
          (to_lower pattern).data = true <;> simp [h1, h2]
    rw [hfold, h, List.filter_filter, List.filter_map]
    congr 1
    · funext raw
      exact catalog_key_eq raw
    · apply List.filter_congr
      intro raw _
      simp only [Function.comp]
      rw [← catalog_key_eq raw, Bool.and_comm]
      congr 1
      rw [Bool.eq_iff_iff]
      exact isEmpty_eq_false_iff _

/-- C19: for every catalog (present or absent) and pattern, the search equals
the listing filtered, in order, by "the lower-cased pattern is a substring of
the lower-cased key"; the listing is the catalog's keys, each cut at its first
NUL, in iteration order with empty results left out; and the search for the
empty pattern is the listing. -/
theorem search_refines_filtered_listing (srv : MarketDataServer) (pattern : String) :
    srv.search_instruments pattern
      = search_instruments_spec srv.get_all_instruments pattern ∧
    srv.get_all_instruments = get_all_instruments_spec srv.catalog ∧
    srv.search_instruments "" = srv.get_all_instruments := by
  have hsearch : ∀ p, srv.search_instruments p
      = search_instruments_spec srv.get_all_instruments p := by
    intro p
    rw [search_instruments_eq, get_all_instruments_eq]
    unfold search_instruments_spec
    apply List.filter_congr
    intro key _
    rw [Bool.eq_iff_iff, contains_substring_iff]
    simp
  refine ⟨hsearch pattern, get_all_instruments_eq srv, ?_⟩
  rw [hsearch ""]
  unfold search_instruments_spec
  rw [List.filter_eq_self]
  intro key _
  have : (to_lower "").data = [] := rfl
  rw [this]
  simp

/-- C12: with a catalog present, `search_instruments(pattern)` returns, in the
catalog's iteration order, exactly the keys (cut at the first NUL) that are
not empty and whose lower-cased form has the lower-cased pattern as a
substring. -/
theorem search_instruments_case_insensitive (srv : MarketDataServer)
    (entries : List String) (pattern : String) (h : srv.ins_map_ = some entries) :
    srv.search_instruments pattern
      = (entries.map cstr).filter (fun key =>
          decide (key ≠ "" ∧ (to_lower pattern).data <:+: (to_lower key).data)) := by
  rw [search_instruments_eq]
  unfold get_all_instruments_spec catalog
  rw [h, Option.getD_some, List.filter_filter]
  apply List.filter_congr
  intro key _
  rw [Bool.eq_iff_iff]
  simp only [Bool.and_eq_true, contains_substring_iff, decide_eq_true_eq, bne_iff_ne, ne_eq]
  exact And.comm

/-- Witness of `search_instruments_case_insensitive`: with the catalog
`cu2412`, `rb2410`, `rb2501` the pattern `RB` returns `rb2410` and `rb2501`. -/
theorem search_instruments_case_insensitive_witness :
    with_sample_catalog.search_instruments "RB" = ["rb2410", "rb2501"] :=
  (search_instruments_case_insensitive with_sample_catalog
    ["cu2412", "rb2410", "rb2501"] "RB" rfl).trans (by decide)

/-- C13: with the catalog absent (`ins_map_` null) the listing is empty and
every search is empty, and a `list_instruments` or `search_instruments` request
is answered by one `instrument_list` resp. `search_result` frame with an empty
`instruments` array and `count` 0; no `error` frame is sent and the server is
left as it was. -/
theorem catalog_absent_answers_empty (self : WebSocketSession) (server : MarketDataServer)
    (now : Int) (doc : List (String × JsonValue)) (a : String)
    (habsent : server.ins_map_ = none)
    (haction : JsonValue.FindMember doc "action" = some (.str a)) :
    server.get_all_instruments = [] ∧
    (∀ pattern, server.search_instruments pattern = []) ∧
    (cstr a = "list_instruments" →
      ∃ r, self.handle_message server now (some (.obj doc)) = some r ∧
        r.1.enqueued = self.enqueued ++ [instrument_list_frame []] ∧ r.2 = server) ∧
    (cstr a = "search_instruments" →
      ∀ p, JsonValue.FindMember doc "pattern" = some (.str p) →
        ∃ r, self.handle_message server now (some (.obj doc)) = some r ∧
          r.1.enqueued = self.enqueued ++ [search_result_frame (cstr p) []] ∧
          r.2 = server) := by
  have hall : server.get_all_instruments = [] := by
    unfold get_all_instruments
    rw [habsent]
  have hsearch : ∀ pattern, server.search_instruments pattern = [] := by
    intro pattern
    unfold search_instruments
    rw [habsent]
  refine ⟨hall, hsearch, ?_, ?_⟩
  · intro hs
    have h1 : cstr a ≠ "subscribe" := by rw [hs]; decide
    have h2 : cstr a ≠ "unsubscribe" := by rw [hs]; decide
    simp only [handle_message, haction, if_neg h1, if_neg h2, if_pos hs, hall]
    refine ⟨_, rfl, ?_, rfl⟩
    simp only [send_response, send_message_enqueued]
    rfl
  · intro hs p hp
    have h1 : cstr a ≠ "subscribe" := by rw [hs]; decide
    have h2 : cstr a ≠ "unsubscribe" := by rw [hs]; decide
    have h3 : cstr a ≠ "list_instruments" := by rw [hs]; decide
    simp only [handle_message, haction, if_neg h1, if_neg h2, if_neg h3, if_pos hs, hp,
      hsearch, cstr_cstr]
    refine ⟨_, rfl, ?_, rfl⟩
    simp only [send_response, send_message_enqueued]
    rfl

/-- Witness of `catalog_absent_answers_empty`: a fresh session asks a freshly
created server, which has no catalog, for the list. -/
theorem catalog_absent_answers_empty_witness :
    ∃ r, (WebSocketSession.create "session_1").handle_message (MarketDataServer.create "9999")
        0 (some (.obj [("action", .str "list_instruments")])) = some r ∧
      r.1.enqueued = (WebSocketSession.create "session_1").enqueued
        ++ [instrument_list_frame []] ∧
      r.2 = MarketDataServer.create "9999" :=
  (catalog_absent_answers_empty (WebSocketSession.create "session_1")
    (MarketDataServer.create "9999") 0 [("action", .str "list_instruments")]
    "list_instruments" rfl rfl).2.2.1 (by decide)

end Catalog

/-! ## Entries of the index are never empty -/

section NoEmptyEntries

open MarketDataServer

theorem noEmptyEntry_subscribe (srv : MarketDataServer) (s i : String)
    (h : srv.NoEmptyEntry) : (srv.subscribe_instrument s i).NoEmptyEntry := by
  obtain ⟨hmode, hne⟩ := h
  rw [subscribe_instrument_single srv s i hmode]
  refine ⟨hmode, ?_⟩
  intro j subs hj
  simp only at hj
  by_cases hji : j = i
  · subst hji
    rw [Function.update_same, Option.some.injEq] at hj
    rw [← hj]
    exact StrSet.insert_ne_nil _ _
  · rw [Function.update_noteq hji] at hj
    exact hne j subs hj

theorem noEmptyEntry_unsubscribe (srv : MarketDataServer) (s i : String)
    (h : srv.NoEmptyEntry) : (srv.unsubscribe_instrument s i).NoEmptyEntry := by
  obtain ⟨hmode, hne⟩ := h
  rw [unsubscribe_instrument_single srv s i hmode]
  refine ⟨hmode, ?_⟩
  intro j subs hj
  simp only at hj
  by_cases hji : j = i
  · subst hji
    rw [Function.update_same] at hj
    intro h0
    rw [h0] at hj
    exact released_ne_some_nil s _ hj
  · rw [Function.update_noteq hji] at hj
    exact hne j subs hj

theorem noEmptyEntry_remove_session (srv : MarketDataServer)
    (deref : String → WebSocketSession) (s : String) (h : srv.NoEmptyEntry) :
    (srv.remove_session_result deref s).NoEmptyEntry := by
  have hfold : ∀ (l : List String) (srv : MarketDataServer), srv.NoEmptyEntry →
      (l.foldl (remove_session_loop s) srv).NoEmptyEntry := by
    intro l
    induction l with
    | nil => exact fun srv h => h
    | cons i rest ih =>
      intro srv h
      simp only [List.foldl_cons]
      apply ih
      rw [remove_session_loop_eq srv s i h.1]
      exact noEmptyEntry_unsubscribe srv s i h
  have hmode := h.1
  unfold remove_session_result
  simp only [hmode, Bool.false_eq_true, if_false]
  split
  · exact hfold _ srv h
  · exact h

theorem noEmptyEntry_apply (op : IndexOp) (srv srv1 : MarketDataServer)
    (h : srv.NoEmptyEntry) (h1 : op.apply srv = some srv1) : srv1.NoEmptyEntry := by
  cases op with
  | subscribe_instrument s i =>
    simp only [IndexOp.apply, Option.some.injEq] at h1
    exact h1 ▸ noEmptyEntry_subscribe srv s i h
  | unsubscribe_instrument s i =>
    simp only [IndexOp.apply, Option.some.injEq] at h1
    exact h1 ▸ noEmptyEntry_unsubscribe srv s i h
  | remove_session deref s shared =>
    simp only [IndexOp.apply] at h1
    rw [remove_session_some srv deref s shared srv1 h1]
    exact noEmptyEntry_remove_session srv deref s h

theorem indexOp_apply_of_shared (op : IndexOp) (srv : MarketDataServer)
    (hs : op.shared = true) : ∃ srv1, op.apply srv = some srv1 := by
  cases op with
  | subscribe_instrument s i => exact ⟨_, rfl⟩
  | unsubscribe_instrument s i => exact ⟨_, rfl⟩
  | remove_session deref s shared =>
    simp only [IndexOp.shared] at hs
    subst hs
    exact ⟨_, remove_session_shared srv deref s⟩

theorem noEmptyEntry_run (ops : List IndexOp) (srv srv1 : MarketDataServer)
    (h : srv.NoEmptyEntry) (h1 : IndexOp.run srv ops = some srv1) : srv1.NoEmptyEntry := by
  induction ops generalizing srv with
  | nil =>
    simp only [IndexOp.run, Option.some.injEq] at h1
    exact h1 ▸ h
  | cons op rest ih =>
    simp only [IndexOp.run] at h1
    cases hop : op.apply srv with
    | none => rw [hop] at h1; exact absurd h1 (by simp)
    | some srv2 =>
      rw [hop] at h1
      exact ih srv2 (noEmptyEntry_apply op srv srv2 h hop) h1

theorem indexOp_run_of_shared (ops : List IndexOp) (srv : MarketDataServer)
    (hs : ∀ op ∈ ops, op.shared = true) : ∃ srv1, IndexOp.run srv ops = some srv1 := by
  induction ops generalizing srv with
  | nil => exact ⟨srv, rfl⟩
  | cons op rest ih =>
    obtain ⟨srv2, hop⟩ := indexOp_apply_of_shared op srv (hs op (List.mem_cons_self _ _))
    obtain ⟨srv3, h3⟩ := ih srv2 (fun o ho => hs o (List.mem_cons_of_mem _ ho))
    exact ⟨srv3, by simp only [IndexOp.run, hop, h3]⟩

/-- C18: in single-connection mode, starting from an empty index, after any
sequence of `subscribe_instrument`, `unsubscribe_instrument` and
`remove_session` calls every instrument that has an entry in
`instrument_subscribers_` maps to a non-empty subscriber set.  The calls have a
result whenever no `remove_session` among them drops the last owner of its
session (that call never returns); and whenever they have a result, it is as
said. -/
theorem entries_never_empty (srv : MarketDataServer) (ops : List IndexOp)
    (hmode : srv.use_multi_ctp_mode_ = false)
    (hindex : ∀ i, srv.instrument_subscribers_ i = none) :
    ((∀ op ∈ ops, op.shared = true) →
      ∃ srv1, IndexOp.run srv ops = some srv1 ∧
        ∀ i subs, srv1.instrument_subscribers_ i = some subs → subs ≠ []) ∧
    (∀ srv1, IndexOp.run srv ops = some srv1 →
      ∀ i subs, srv1.instrument_subscribers_ i = some subs → subs ≠ []) := by
  have h0 : srv.NoEmptyEntry := by
    refine ⟨hmode, ?_⟩
    intro i subs hi
    rw [hindex i] at hi
    exact absurd hi (by simp)
  have hresult : ∀ srv1, IndexOp.run srv ops = some srv1 →
      ∀ i subs, srv1.instrument_subscribers_ i = some subs → subs ≠ [] :=
    fun srv1 h1 => (noEmptyEntry_run ops srv srv1 h0 h1).2
  refine ⟨fun hs => ?_, hresult⟩
  obtain ⟨srv1, h1⟩ := indexOp_run_of_shared ops srv hs
  exact ⟨srv1, h1, hresult srv1 h1⟩

/-- Witness of `entries_never_empty`: two sessions subscribe `rb2410` and
`cu2412`, one unsubscribes, and the registered `session_2` is removed while a
handler still holds it; the calls have a result and every entry left in it is
non-empty. -/
theorem entries_never_empty_witness :
    ∃ srv1,
      IndexOp.run ((MarketDataServer.create "9999").add_session "session_2")
        [IndexOp.subscribe_instrument "session_1" "rb2410",
         IndexOp.subscribe_instrument "session_2" "rb2410",
         IndexOp.subscribe_instrument "session_2" "cu2412",
         IndexOp.unsubscribe_instrument "session_1" "rb2410",
         IndexOp.remove_session rb2410_holder "session_2" true] = some srv1 ∧
      ∀ i subs, srv1.instrument_subscribers_ i = some subs → subs ≠ [] :=
  (entries_never_empty ((MarketDataServer.create "9999").add_session "session_2")
    [IndexOp.subscribe_instrument "session_1" "rb2410",
     IndexOp.subscribe_instrument "session_2" "rb2410",
     IndexOp.subscribe_instrument "session_2" "cu2412",
     IndexOp.unsubscribe_instrument "session_1" "rb2410",
     IndexOp.remove_session rb2410_holder "session_2" true] rfl (fun _ => rfl)).1
    (by
      intro op hop
      simp only [List.mem_cons, List.mem_singleton, List.not_mem_nil, or_false] at hop
      rcases hop with rfl | rfl | rfl | rfl | rfl <;> rfl)

end NoEmptyEntries

/-! ## Login -/

section Login

open MarketDataServer

/-- C17: in single-connection mode with the SDK handle present, `ctp_login`
has a result; when `ReqUserLogin` returned 0 both `ctp_connected_` and
`ctp_logged_in_` are true in it, otherwise both are as before.  The login
response callback leaves the server as it is whether or not the response
carries an error, so after a successful send `is_ctp_connected()` and
`is_ctp_logged_in()` report true also when the login was rejected. -/
theorem ctp_login_sets_flags_on_send (srv : MarketDataServer) (ret : Int)
    (hmode : srv.use_multi_ctp_mode_ = false) (hapi : srv.ctp_api_ = true) :
    ∃ srv1, srv.ctp_login ret = some srv1 ∧
      (ret = 0 → srv1.ctp_connected_ = true ∧ srv1.ctp_logged_in_ = true) ∧
      (ret ≠ 0 → srv1.ctp_connected_ = srv.ctp_connected_ ∧
        srv1.ctp_logged_in_ = srv.ctp_logged_in_) ∧
      (∀ pRspInfo, MarketDataSpi.OnRspUserLogin srv1 pRspInfo = srv1) ∧
      (ret = 0 → ∀ pRspInfo active_connections,
        (MarketDataSpi.OnRspUserLogin srv1 pRspInfo).is_ctp_connected active_connections = true ∧
        (MarketDataSpi.OnRspUserLogin srv1 pRspInfo).is_ctp_logged_in active_connections
          = true) := by
  have hrsp : ∀ (s : MarketDataServer) pRspInfo, MarketDataSpi.OnRspUserLogin s pRspInfo = s := by
    intro s pRspInfo
    unfold MarketDataSpi.OnRspUserLogin
    cases pRspInfo with
    | none => rfl
    | some info => simp
  unfold ctp_login
  rw [if_pos hapi]
  by_cases hret : ret = 0
  · subst hret
    refine ⟨_, rfl, fun _ => ⟨rfl, rfl⟩, fun h => absurd rfl h, fun p => hrsp _ p, ?_⟩
    intro _ pRspInfo active
    rw [hrsp]
    simp [is_ctp_connected, is_ctp_logged_in, hmode]
  · have hne : (ret != 0) = true := by simpa using hret
    rw [if_pos hne]
    exact ⟨_, rfl, fun h => absurd h hret, fun _ => ⟨rfl, rfl⟩, fun p => hrsp _ p,
      fun h => absurd h hret⟩

/-- Witness of `ctp_login_sets_flags_on_send`: the login request is sent
successfully on a started server and the response then reports error 3. -/
theorem ctp_login_sets_flags_on_send_witness :
    ∃ srv1, (started "9999").ctp_login 0 = some srv1 ∧
      (MarketDataSpi.OnRspUserLogin srv1
        (some { ErrorID := 3, ErrorMsg := "invalid login" })).is_ctp_logged_in none = true := by
  obtain ⟨srv1, h1, -, -, -, h5⟩ :=
    ctp_login_sets_flags_on_send (started "9999") 0 rfl rfl
  exact ⟨srv1, h1, (h5 rfl _ _).2⟩

end Login

/-! ## Fan-out -/

section FanOut

open MarketDataServer WebSocketSession

theorem broadcast_fold (registered : String → Bool) (p : Message) (l : List String)
    (sessions : String → WebSocketSession) (hnodup : l.Nodup) (k : String) :
    (l.foldl (fun sessions session_id =>
        if registered session_id then
          Function.update sessions session_id ((sessions session_id).send_message p)
        else sessions) sessions) k
      = if k ∈ l ∧ registered k = true then (sessions k).send_message p else sessions k := by
  induction l generalizing sessions with
  | nil => simp
  | cons x rest ih =>
    obtain ⟨hx, hrest⟩ := List.nodup_cons.1 hnodup
    simp only [List.foldl_cons]
    rw [ih _ hrest]
    by_cases hkx : k = x
    · subst hkx
      have hk : ¬ (k ∈ rest ∧ registered k = true) := fun h => hx h.1
      rw [if_neg hk]
      by_cases hr : registered k = true
      · simp [hr]
      · simp [hr]
    · have hmem : k ∈ x :: rest ↔ k ∈ rest := by simp [hkx]
      have hsame : (if registered x = true then
            Function.update sessions x ((sessions x).send_message p)
          else sessions) k = sessions k := by
        split
        · exact Function.update_noteq hkx _ _
        · rfl
      rw [hsame]
      simp only [hmem]

/-- C11: `broadcast_market_data(i, p)` leaves the server (subscription index
and sessions table included) as it is; a session whose id is among the
subscribers of `i` and in the sessions table gets `p` through `send_message`,
exactly once, so its enqueued frames grow by `p`; every other session object,
in particular one whose id is a subscriber but not in the table, is left
untouched. -/
theorem broadcast_reaches_registered_subscribers (w : World) (i : String) (p : Message)
    (hnodup : (w.server.subscribers i).Nodup) :
    (w.broadcast_market_data i p).server = w.server ∧
    (∀ k, k ∈ w.server.subscribers i → w.server.sessions_ k = true →
      ((w.broadcast_market_data i p).session k) = (w.session k).send_message p ∧
      ((w.broadcast_market_data i p).session k).enqueued = (w.session k).enqueued ++ [p]) ∧
    (∀ k, ¬ (k ∈ w.server.subscribers i ∧ w.server.sessions_ k = true) →
      (w.broadcast_market_data i p).session k = w.session k) := by
  unfold World.broadcast_market_data
  unfold subscribers at hnodup ⊢
  cases he : w.server.instrument_subscribers_ i with
  | none =>
    refine ⟨rfl, ?_, fun k _ => rfl⟩
    intro k hk
    simp at hk
  | some subs =>
    rw [he] at hnodup
    simp only [Option.getD_some] at hnodup ⊢
    refine ⟨by trivial, ?_, ?_⟩
    · intro k hk hr
      have h := broadcast_fold w.server.sessions_ p subs w.session hnodup k
      rw [if_pos ⟨hk, hr⟩] at h
      rw [h]
      exact ⟨rfl, send_message_enqueued _ p⟩
    · intro k hk
      have h := broadcast_fold w.server.sessions_ p subs w.session hnodup k
      rw [if_neg hk] at h
      exact h

/-- Witness of `broadcast_reaches_registered_subscribers`: `session_1` and
`session_2` are registered subscribers of `rb2410`, `session_3` subscribes
without being in the table; a tick reaches the first two and not the third. -/
theorem broadcast_reaches_registered_subscribers_witness :
    ((sample_world.broadcast_market_data "rb2410" (JsonValue.str "tick")).session
        "session_1").enqueued = [JsonValue.str "tick"] ∧
    ((sample_world.broadcast_market_data "rb2410" (JsonValue.str "tick")).session
        "session_2").enqueued = [JsonValue.str "tick"] ∧
    (sample_world.broadcast_market_data "rb2410" (JsonValue.str "tick")).session "session_3"
      = sample_world.session "session_3" :=
  have h := broadcast_reaches_registered_subscribers sample_world "rb2410"
    (JsonValue.str "tick") (by decide)
  ⟨(h.2.1 "session_1" (by decide) (by decide)).2,
   (h.2.1 "session_2" (by decide) (by decide)).2,
   h.2.2 "session_3" (by decide)⟩

end FanOut

/-! ## Ticks -/

section Ticks

open MarketDataServer WebSocketSession

/-- C14: for every tick the callback receives, the payload is an object whose
first member is `type` with value `market_data` and whose remaining member
names are the nineteen of the schema, each once and in that order;
`instrument_id`, `trading_day`, `update_time` carry the tick's character arrays
(as C strings), `volume`, `bid_volume1`, `ask_volume1` the tick's volumes; and
the payload is broadcast under the tick's instrument id. -/
theorem tick_payload_schema (w : World) (redis_client : Option RedisClient)
    (reply : RedisCall → Bool) (now : Int) (tick : CThostFtdcDepthMarketDataField) :
    ∃ members, market_data_document tick now = JsonValue.obj (("type", .str "market_data") :: members) ∧
      members.map Prod.fst = tick_member_names ∧
      JsonValue.FindMember members "instrument_id" = some (.str (cstr tick.InstrumentID)) ∧
      JsonValue.FindMember members "trading_day" = some (.str (cstr tick.TradingDay)) ∧
      JsonValue.FindMember members "update_time" = some (.str (cstr tick.UpdateTime)) ∧
      JsonValue.FindMember members "volume" = some (.int tick.Volume) ∧
      JsonValue.FindMember members "bid_volume1" = some (.int tick.BidVolume1) ∧
      JsonValue.FindMember members "ask_volume1" = some (.int tick.AskVolume1) ∧
      (MarketDataSpi.OnRtnDepthMarketData w redis_client reply now (some tick)).world
        = w.broadcast_market_data (cstr tick.InstrumentID) (market_data_document tick now) :=
  ⟨_, rfl, rfl, rfl, rfl, rfl, rfl, rfl, rfl, rfl⟩

/-- C15: for every tick the callback receives, what reaches the sessions does
not depend on the cache: with any two cache clients (absent, not connected,
connected) and any two sets of answers to `set` and `hset`, the server and the
sessions end in the same state, namely the one a single
`broadcast_market_data` of the tick's instrument id and payload produces. -/
theorem tick_delivery_ignores_cache (w : World) (now : Int)
    (tick : CThostFtdcDepthMarketDataField)
    (client1 client2 : Option RedisClient) (reply1 reply2 : RedisCall → Bool) :
    (MarketDataSpi.OnRtnDepthMarketData w client1 reply1 now (some tick)).world
      = (MarketDataSpi.OnRtnDepthMarketData w client2 reply2 now (some tick)).world ∧
    (MarketDataSpi.OnRtnDepthMarketData w client1 reply1 now (some tick)).world
      = w.broadcast_market_data (cstr tick.InstrumentID) (market_data_document tick now) :=
  ⟨rfl, rfl⟩

end Ticks

/-! ## Session I/O errors -/

section SessionErrors

open MarketDataServer WebSocketSession

/-- A failed or closed read on a session that is in the sessions table changes
nothing: the table keeps the object alive, so its destructor, the only caller
of `remove_session`, does not run. -/
theorem on_read_error_registered (w : World) (k : String) (now : Int)
    (parsed : Option JsonValue) (hreg : w.server.sessions_ k = true) :
    w.on_read k ReadStatus.error now parsed = some w ∧
    w.on_read k ReadStatus.closed now parsed = some w := by
  simp [World.on_read, World.release_handler, hreg]

/-- A failed write on a session that is in the sessions table clears
`is_writing_` at most; the server, and with it the index and the table, stays
as it is. -/
theorem on_write_error_registered (w : World) (k : String)
    (hreg : w.server.sessions_ k = true) :
    ∃ w1, w.on_write k true = some w1 ∧ w1.server = w.server := by
  simp [World.on_write, World.release_handler, hreg]

/-- C16 (failing input): `session_1` is accepted and registered on a logged-in
server and subscribes `rb2410`.  Then its read fails, or the peer closes, or
its write fails.  In each case the session is still in the sessions table, it
is still the subscriber of `rb2410`, the only upstream request made is the
subscribe, and one more tick for `rb2410` is still enqueued to it. -/
theorem io_error_keeps_session_and_subscriptions :
    ((accepted_world.handle_message "session_1" 0 (subscribe_request ["rb2410"]).parsed).bind
        (fun w => w.on_read "session_1" ReadStatus.error 1 none)).map footprint
      = some (true, ["session_1"], [CtpCall.SubscribeMarketData "rb2410"], 1) ∧
    ((accepted_world.handle_message "session_1" 0 (subscribe_request ["rb2410"]).parsed).bind
        (fun w => w.on_read "session_1" ReadStatus.closed 1 none)).map footprint
      = some (true, ["session_1"], [CtpCall.SubscribeMarketData "rb2410"], 1) ∧
    ((accepted_world.handle_message "session_1" 0 (subscribe_request ["rb2410"]).parsed).bind
        (fun w => w.on_write "session_1" true)).map footprint
      = some (true, ["session_1"], [CtpCall.SubscribeMarketData "rb2410"], 1) :=
  ⟨by decide, by decide, by decide⟩

end SessionErrors

end MarketData
